import Mathlib

/-!
Verification of the Kademlia DHT routing and placement core
(`src/protocols/kademlia-dht/src/Node.ts`, `KademliaDHT.ts`).

Modelling conventions:
* TS `Node` objects are states in a heap (`Heap := List Node`); an object is
  identified by its immutable `key.id`, and mutation is explicit state passing.
* The keccak256 hash (external npm package) is an abstract parameter
  `H : String → Nat` giving the numeric value `BigInt(hashHex)` of a hash.
* `Node.findClosestNode` recurses with no depth bound in TS, so its embedding
  carries explicit fuel and returns `none` exactly when the TS call has not
  returned within that many expansions.
* A thrown `Error` is `Except.error` with the thrown message.
-/

/-- JavaScript runtime values as far as the DHT stores them: `null`, `undefined`,
or an ordinary (string) value. `Node.storeData` takes `unknown`, so `null` and
`undefined` are storable at node level. -/
inductive JSVal where
  | vNull
  | vUndefined
  | vStr (s : String)
  deriving DecidableEq, Repr

/-- `HashKey` (packages/utils): the raw id string together with the numeric value
of its keccak256 hash (`BigInt(targetHashKey.hash)` in `Node.xorDistance`). -/
structure HashKey where
  id : String
  hash : Nat
  deriving DecidableEq, Repr

/-- Fuel-indexed bit counter: `popCountAux f n` is the number of 1 bits of `n`
whenever `n ≤ f` (the fuel only makes the recursion structural). -/
def popCountAux : Nat → Nat → Nat
  | _, 0 => 0
  | 0, _ + 1 => 0
  | f + 1, n + 1 => (n + 1) % 2 + popCountAux f ((n + 1) / 2)

/-- Number of 1 bits of `n`: the embedding of
`xorResult.toString(2).split('1').length - 1` (count of `'1'` characters of the
binary expansion; `(0).toString(2) = "0"` yields 0). -/
def popCount (n : Nat) : Nat := popCountAux n n

/-- A Kademlia node (Node.ts). `data` is the local key→value store (a JS `Map`:
insertion ordered, unique keys); `kBuckets` holds the keys of the known
neighbour nodes (the TS array holds live `Node` references; a reference is
identified by the referee's immutable `key.id`, whose state lives in the heap). -/
structure Node where
  key : HashKey
  data : List (String × JSVal)
  kBuckets : List HashKey
  deriving DecidableEq, Repr

/-- Maximum k-bucket size (`static readonly K = 2`, Node.ts line 41). -/
def Node.K : Nat := 2

/-- `Node.xorDistance` (Node.ts 61–72): XOR the two hash values, render in
binary, and count the `'1'` characters — the Hamming weight of the XOR,
not the raw XOR value. -/
def Node.xorDistance (k1 k2 : HashKey) : Nat :=
  popCount (k1.hash ^^^ k2.hash)

/-- JS `Map.get`: `undefined` when the key is absent. -/
def mapGetJS (m : List (String × JSVal)) (k : String) : JSVal :=
  match m.find? (fun e => e.1 == k) with
  | none => JSVal.vUndefined
  | some e => e.2

/-- JS `Map.set`: replace in place when the key is present, else append. -/
def mapSetJS (m : List (String × JSVal)) (k : String) (v : JSVal) :
    List (String × JSVal) :=
  if (m.find? (fun e => e.1 == k)).isSome then
    m.map (fun e => if e.1 == k then (k, v) else e)
  else m ++ [(k, v)]

/-- JS `Map.delete`. -/
def mapDeleteJS (m : List (String × JSVal)) (k : String) : List (String × JSVal) :=
  m.filter (fun e => !(e.1 == k))

/-- JS nullish coalescing `x ?? d`. -/
def nullish (v d : JSVal) : JSVal :=
  match v with
  | JSVal.vNull => d
  | JSVal.vUndefined => d
  | x => x

/-- `Node.storeData` (Node.ts 80–88): `this.data.set(dataKey.id, value)`. -/
def Node.storeData (self : Node) (dataKey : HashKey) (value : JSVal) : Node :=
  { self with data := mapSetJS self.data dataKey.id value }

/-- `Node.getData` (Node.ts 96–103): `this.data.get(dataKey.id) ?? null`. -/
def Node.getData (self : Node) (dataKey : HashKey) : JSVal :=
  nullish (mapGetJS self.data dataKey.id) JSVal.vNull

/-- The total preorder induced by the sort comparator
`(a, b) => xorDistance(this.key, a.key) - xorDistance(this.key, b.key)`. -/
def distLe (selfKey a b : HashKey) : Prop :=
  Node.xorDistance selfKey a ≤ Node.xorDistance selfKey b

instance (selfKey : HashKey) : DecidableRel (distLe selfKey) :=
  fun a b => inferInstanceAs (Decidable (Node.xorDistance selfKey a ≤ Node.xorDistance selfKey b))

/-- `Array.prototype.sort` with the distance comparator: a stable ascending
sort, of which insertion sort is one implementation. -/
def sortByDist (selfKey : HashKey) (l : List HashKey) : List HashKey :=
  l.insertionSort (distLe selfKey)

/-- The unguarded insertion step of `addToRoutingTable` (Node.ts 135–147):
push the new key, sort ascending by distance to self, and pop the farthest
entry when the table exceeds `K`. -/
def bucketsInsert (selfKey otherKey : HashKey) (buckets : List HashKey) :
    List HashKey :=
  let sorted := sortByDist selfKey (buckets ++ [otherKey])
  if Node.K < sorted.length then sorted.dropLast else sorted

/-- The effect of `Node.addToRoutingTable` (Node.ts 115–147) on `kBuckets`:
self and already-present identities are ignored, otherwise insert-sort-trim.
(The `transferData` side effect never touches `kBuckets`.) -/
def bucketsAfterAdd (selfKey otherKey : HashKey) (buckets : List HashKey) :
    List HashKey :=
  if selfKey.id == otherKey.id then buckets
  else if (buckets.find? (fun k => k.id == otherKey.id)).isSome then buckets
  else bucketsInsert selfKey otherKey buckets

/-- The object heap: one `Node` state per live node object. Ids are unique in
every reachable heap (`new Node(id)` keys are immutable). -/
abbrev Heap := List Node

/-- Dereference a node object by id. -/
def findNode (net : Heap) (id : String) : Option Node :=
  net.find? (fun n => n.key.id == id)

/-- Write back a mutated node object. -/
def setNode (net : Heap) (n : Node) : Heap :=
  net.map (fun m => if m.key.id == n.key.id then n else m)

/-- Argument type of the network API: `string | HashKey`. -/
inductive KeyArg where
  | str (s : String)
  | key (k : HashKey)

/-- `HashKey.toKey`: a string is hashed into a fresh `HashKey` (hash function
`H` standing for keccak256), a `HashKey` passes through unchanged. -/
def HashKey.toKey (H : String → Nat) : KeyArg → HashKey
  | KeyArg.str s => ⟨s, H s⟩
  | KeyArg.key k => k

/-- `Node.getClosestKnownNode` (Node.ts 220–231): reduce over `kBuckets` with
initial accumulator `this`, keeping the accumulator only when it is strictly
closer to the target (`aDistance < bDistance ? a : b`). Returns the winning
node's key. -/
def Node.getClosestKnownNode (self : Node) (dataKey : HashKey) : HashKey :=
  if self.kBuckets.isEmpty then self.key
  else self.kBuckets.foldl
    (fun a b => if Node.xorDistance a dataKey < Node.xorDistance b dataKey then a else b)
    self.key

/-- `Node.findClosestNode` (Node.ts 191–212) with explicit fuel: the TS code
recurses with no depth bound and no visited set, so `none` means the call has
not returned after `fuel` expansions. The optional `Path` trace is diagnostic
only (an append-only caller-owned log) and is omitted. -/
def Node.findClosestNodeFuel (net : Heap) : Nat → Node → HashKey → Option Node
  | 0, _, _ => none
  | fuel + 1, self, dataKey =>
    let closestKnown := self.getClosestKnownNode dataKey
    if self.key.id == closestKnown.id then some self
    else
      match findNode net closestKnown.id with
      | none => none
      | some next => Node.findClosestNodeFuel net fuel next dataKey

/-- One iteration of the `transferData` loop (Node.ts 161–182): re-derive the
entry's `HashKey` from the stored raw id, and when `findClosestNode` lands on
the newly joined node, store the entry there and delete it from the current
node. `none` models a `findClosestNode` call that does not return. -/
def transferStep (H : String → Nat) (fuel : Nat) (selfId newId : String)
    (h : Heap) (entry : String × JSVal) : Option Heap := do
  let dataHashKey := HashKey.toKey H (KeyArg.str entry.1)
  let selfNow ← findNode h selfId
  let newClosest ← Node.findClosestNodeFuel h fuel selfNow dataHashKey
  let newNode ← findNode h newId
  if newClosest.key.id == newNode.key.id then
    let h1 := setNode h (newNode.storeData dataHashKey entry.2)
    let selfAfter ← findNode h1 selfId
    pure (setNode h1 { selfAfter with data := mapDeleteJS selfAfter.data entry.1 })
  else
    pure h

/-- `Node.transferData` (Node.ts 160–183): walk the entries of `this.data`
(a snapshot is sound: the loop only deletes the entry it is visiting, which JS
`Map` iteration permits), applying `transferStep` to each. -/
def Node.transferDataFuel (H : String → Nat) (net : Heap) (fuel : Nat)
    (selfId newId : String) : Option Heap :=
  match findNode net selfId with
  | none => none
  | some self =>
    self.data.foldlM (transferStep H fuel selfId newId) net

/-- `Node.addToRoutingTable` (Node.ts 115–154) at heap level: the two guards,
then the `kBuckets` update, then the `transferData` side effect (which runs
only when an insertion actually happened). -/
def Node.addToRoutingTableFuel (H : String → Nat) (net : Heap) (fuel : Nat)
    (selfId otherId : String) : Option Heap :=
  match findNode net selfId, findNode net otherId with
  | some self, some other =>
    if self.key.id == other.key.id then some net
    else if (self.kBuckets.find? (fun k => k.id == other.key.id)).isSome then some net
    else
      let net1 := setNode net
        { self with kBuckets := bucketsInsert self.key other.key self.kBuckets }
      Node.transferDataFuel H net1 fuel selfId otherId
  | _, _ => none

/-- `KademliaDHT` (KademliaDHT.ts): `nodes` is the membership array, holding
references (ids) into the heap. `joinNetwork` pushes unconditionally, so the
same id can occur several times in `nodes`. -/
structure KademliaDHT where
  heap : Heap
  nodes : List String
  deriving DecidableEq, Repr

/-- Make a node object live in the heap (no-op when the object — identified by
its immutable `key.id` — is already present). -/
def addObject (net : Heap) (n : Node) : Heap :=
  if (findNode net n.key.id).isSome then net else net ++ [n]

/-- `new Node(id)` (Node.ts 43–50): `key = new HashKey(id)` whose hash is
`H id`; empty store and routing table. -/
def Node.new (H : String → Nat) (id : String) : Node :=
  ⟨⟨id, H id⟩, [], []⟩

/-- `KademliaDHT.joinNetwork` (KademliaDHT.ts 23–39): push the node into
membership, and unless it was the first member, run for every member of the
post-push array (the new node included) the two mutual `addToRoutingTable`
calls. -/
def KademliaDHT.joinNetworkFuel (H : String → Nat) (fuel : Nat)
    (dht : KademliaDHT) (newNode : Node) : Option KademliaDHT :=
  if dht.nodes.length == 0 then
    some ⟨addObject dht.heap newNode, dht.nodes ++ [newNode.key.id]⟩
  else
    let heap0 := addObject dht.heap newNode
    let members := dht.nodes ++ [newNode.key.id]
    (members.foldlM
      (fun h eid => do
        let h1 ← Node.addToRoutingTableFuel H h fuel eid newNode.key.id
        Node.addToRoutingTableFuel H h1 fuel newNode.key.id eid)
      heap0).map (fun h => ⟨h, members⟩)

/-- `KademliaDHT.getRandomNode` with the random index made explicit
(`Math.floor(Math.random() * nodes.length)` is some `i < nodes.length`). -/
def KademliaDHT.getRandomNode (dht : KademliaDHT) (i : Nat) : Option String :=
  dht.nodes.get? i

/-- `KademliaDHT.storeData` (KademliaDHT.ts 51–67). `Except.error` is a thrown
`Error` carrying its message; `Except.ok` carries the post-state. The
`"dangling member reference"` and `"lookup did not return"` errors are
artefacts of the embedding: the first cannot occur on a reachable state with
`i < nodes.length`, the second marks fuel exhaustion (TS never returns). -/
def KademliaDHT.storeDataFuel (H : String → Nat) (dht : KademliaDHT)
    (i fuel : Nat) (dataKey : KeyArg) (value : String) :
    Except String KademliaDHT :=
  if dht.nodes.length == 0 then
    Except.error "No nodes in the network to store data."
  else
    let dataHashKey := HashKey.toKey H dataKey
    match dht.getRandomNode i with
    | none => Except.error "No nodes in the network to select a random node."
    | some nid =>
      match findNode dht.heap nid with
      | none => Except.error "dangling member reference"
      | some entry =>
        match Node.findClosestNodeFuel dht.heap fuel entry dataHashKey with
        | none => Except.error "lookup did not return"
        | some closest =>
          Except.ok ⟨setNode dht.heap (closest.storeData dataHashKey (JSVal.vStr value)), dht.nodes⟩

/-- `KademliaDHT.retrieveData` (KademliaDHT.ts 73–89): same entry-point and
lookup procedure as `storeData`, then `closestNode?.getData(dataHashKey)`. -/
def KademliaDHT.retrieveDataFuel (H : String → Nat) (dht : KademliaDHT)
    (i fuel : Nat) (dataKey : KeyArg) : Except String JSVal :=
  if dht.nodes.length == 0 then
    Except.error "No nodes in the network to retrieve data."
  else
    let dataHashKey := HashKey.toKey H dataKey
    match dht.getRandomNode i with
    | none => Except.error "No nodes in the network to select a random node."
    | some nid =>
      match findNode dht.heap nid with
      | none => Except.error "dangling member reference"
      | some entry =>
        match Node.findClosestNodeFuel dht.heap fuel entry dataHashKey with
        | none => Except.error "lookup did not return"
        | some closest => Except.ok (closest.getData dataHashKey)

/-- The freshly constructed `new KademliaDHT()`. -/
def emptyDHT : KademliaDHT := ⟨[], []⟩

/-- The local store of the member with the given id (for stating claims). -/
def dataOf (dht : KademliaDHT) (id : String) : List (String × JSVal) :=
  match findNode dht.heap id with
  | none => []
  | some n => n.data

/-! ## Basic lemmas about the distance function and sorting -/

lemma popCountAux_eq_digits : ∀ f n, n ≤ f → popCountAux f n = (Nat.digits 2 n).count 1 := by
  intro f
  induction f with
  | zero =>
    intro n hn
    interval_cases n
    simp [popCountAux]
  | succ f ih =>
    intro n hn
    match n with
    | 0 => simp [popCountAux]
    | m + 1 =>
      rw [popCountAux, Nat.digits_def' (by norm_num : 1 < 2) (Nat.succ_pos m),
        List.count_cons]
      have hlt : (m + 1) / 2 < m + 1 := Nat.div_lt_self (Nat.succ_pos m) (by norm_num)
      rw [ih ((m + 1) / 2) (by omega)]
      rcases Nat.mod_two_eq_zero_or_one (m + 1) with h | h <;> rw [h] <;> simp
      omega

lemma popCount_eq_digits (n : Nat) : popCount n = (Nat.digits 2 n).count 1 :=
  popCountAux_eq_digits n n (Nat.le_refl n)

/-- The reduce of `getClosestKnownNode` lands on `c` whenever `c` is strictly
closer to the target than every other candidate (accumulator start included). -/
lemma foldl_closest_eq (k : HashKey) (l : List HashKey) :
    ∀ init c : HashKey, (c = init ∨ c ∈ l) →
      (∀ x, (x = init ∨ x ∈ l) → x = c ∨ Node.xorDistance c k < Node.xorDistance x k) →
      l.foldl (fun a b => if Node.xorDistance a k < Node.xorDistance b k then a else b) init = c := by
  induction l with
  | nil =>
    intro init c hc _
    rcases hc with h | h
    · exact h.symm
    · cases h
  | cons x xs ih =>
    intro init c hc hstrict
    rw [List.foldl_cons]
    apply ih
    · rcases hc with rfl | hmem
      · left
        rcases hstrict x (Or.inr (List.mem_cons_self x xs)) with rfl | hlt
        · exact (ite_self x).symm
        · rw [if_pos hlt]
      · rcases List.mem_cons.mp hmem with rfl | hxs
        · left
          rcases hstrict init (Or.inl rfl) with rfl | hlt
          · exact (ite_self init).symm
          · rw [if_neg (Nat.not_lt.mpr (Nat.le_of_lt hlt))]
        · exact Or.inr hxs
    · intro y hy
      rcases hy with rfl | hyxs
      · by_cases hix : Node.xorDistance init k < Node.xorDistance x k
        · rw [if_pos hix]
          exact hstrict init (Or.inl rfl)
        · rw [if_neg hix]
          exact hstrict x (Or.inr (List.mem_cons_self x xs))
      · exact hstrict y (Or.inr (List.mem_cons_of_mem x hyxs))

lemma getClosestKnownNode_eq_self (self : Node) (k : HashKey)
    (h : ∀ x ∈ self.kBuckets, Node.xorDistance self.key k < Node.xorDistance x k) :
    self.getClosestKnownNode k = self.key := by
  unfold Node.getClosestKnownNode
  by_cases he : self.kBuckets.isEmpty
  · rw [if_pos he]
  · rw [if_neg he]
    apply foldl_closest_eq k self.kBuckets self.key self.key (Or.inl rfl)
    intro x hx
    rcases hx with rfl | hmem
    · exact Or.inl rfl
    · exact Or.inr (h x hmem)

lemma getClosestKnownNode_eq_of_strict (self : Node) (k c : HashKey)
    (hc : c ∈ self.kBuckets)
    (hstrict : ∀ x, (x = self.key ∨ x ∈ self.kBuckets) →
      x = c ∨ Node.xorDistance c k < Node.xorDistance x k) :
    self.getClosestKnownNode k = c := by
  unfold Node.getClosestKnownNode
  have hne : self.kBuckets.isEmpty = false := by
    cases hl : self.kBuckets with
    | nil => rw [hl] at hc; cases hc
    | cons a l => simp [hl]
  rw [hne]
  simp only [Bool.false_eq_true, if_false]
  exact foldl_closest_eq k self.kBuckets self.key c (Or.inr hc) hstrict

lemma findClosest_self (net : Heap) (fuel : Nat) (self : Node) (k : HashKey)
    (h : ∀ x ∈ self.kBuckets, Node.xorDistance self.key k < Node.xorDistance x k) :
    Node.findClosestNodeFuel net (fuel + 1) self k = some self := by
  simp only [Node.findClosestNodeFuel, getClosestKnownNode_eq_self self k h,
    beq_self_eq_true, if_true]

lemma findClosest_hop (net : Heap) (fuel : Nat) (self next : Node) (k c : HashKey)
    (hc : c ∈ self.kBuckets)
    (hstrict : ∀ x, (x = self.key ∨ x ∈ self.kBuckets) →
      x = c ∨ Node.xorDistance c k < Node.xorDistance x k)
    (hne : (self.key.id == c.id) = false)
    (hfind : findNode net c.id = some next) :
    Node.findClosestNodeFuel net (fuel + 1) self k =
      Node.findClosestNodeFuel net fuel next k := by
  simp only [Node.findClosestNodeFuel, getClosestKnownNode_eq_of_strict self k c hc hstrict,
    hne, Bool.false_eq_true, if_false, hfind]

instance (s : HashKey) : IsTotal HashKey (distLe s) := ⟨fun _ _ => Nat.le_total _ _⟩

instance (s : HashKey) : IsTrans HashKey (distLe s) := ⟨fun _ _ _ => Nat.le_trans⟩

lemma sortByDist_perm (s : HashKey) (l : List HashKey) : List.Perm (sortByDist s l) l :=
  List.perm_insertionSort _ l

lemma mem_sortByDist {s x : HashKey} {l : List HashKey} : x ∈ sortByDist s l ↔ x ∈ l :=
  (sortByDist_perm s l).mem_iff

lemma sorted_sortByDist (s : HashKey) (l : List HashKey) :
    List.Sorted (distLe s) (sortByDist s l) :=
  List.sorted_insertionSort _ l

lemma length_sortByDist (s : HashKey) (l : List HashKey) :
    (sortByDist s l).length = l.length :=
  (sortByDist_perm s l).length_eq

/-! ## Routing-table invariant -/

/-- The four-part invariant of a node's `kBuckets` list. -/
def BucketInv (selfKey : HashKey) (l : List HashKey) : Prop :=
  l.length ≤ Node.K
  ∧ (∀ x ∈ l, x.id ≠ selfKey.id)
  ∧ (l.map HashKey.id).Nodup
  ∧ l.Pairwise (fun a b => Node.xorDistance selfKey a ≤ Node.xorDistance selfKey b)

lemma bucketInv_nil (selfKey : HashKey) : BucketInv selfKey [] := by
  refine ⟨by simp [Node.K], by simp, by simp, by simp⟩

lemma bucketInv_step (selfKey otherKey : HashKey) (l : List HashKey)
    (h : BucketInv selfKey l) : BucketInv selfKey (bucketsAfterAdd selfKey otherKey l) := by
  obtain ⟨hlen, hself, hnodup, hsorted⟩ := h
  unfold bucketsAfterAdd
  by_cases hid : (selfKey.id == otherKey.id) = true
  · rw [if_pos hid]
    exact ⟨hlen, hself, hnodup, hsorted⟩
  · rw [if_neg hid]
    by_cases hdup : (l.find? (fun k => k.id == otherKey.id)).isSome = true
    · rw [if_pos hdup]
      exact ⟨hlen, hself, hnodup, hsorted⟩
    · rw [if_neg hdup]
      have hfresh : ∀ x ∈ l, x.id ≠ otherKey.id := by
        intro x hx
        cases hfind : l.find? (fun k => k.id == otherKey.id) with
        | none =>
          have := List.find?_eq_none.mp hfind x hx
          simpa using this
        | some y => rw [hfind] at hdup; simp at hdup
      have hos : otherKey.id ≠ selfKey.id := by
        intro hcontra
        exact hid (by simp [hcontra])
      unfold bucketsInsert
      set sorted := sortByDist selfKey (l ++ [otherKey]) with hsortdef
      have hmem : ∀ x, x ∈ sorted ↔ x ∈ l ∨ x = otherKey := by
        intro x
        rw [hsortdef, mem_sortByDist]
        simp
      have hsortedlen : sorted.length = l.length + 1 := by
        rw [hsortdef, length_sortByDist]
        simp
      have hsortedsorted : sorted.Pairwise
          (fun a b => Node.xorDistance selfKey a ≤ Node.xorDistance selfKey b) :=
        sorted_sortByDist selfKey (l ++ [otherKey])
      have hsortednodup : (sorted.map HashKey.id).Nodup := by
        have hperm : List.Perm (sorted.map HashKey.id) ((l ++ [otherKey]).map HashKey.id) :=
          (sortByDist_perm selfKey (l ++ [otherKey])).map HashKey.id
        refine hperm.nodup_iff.mpr ?_
        rw [List.map_append]
        refine List.Nodup.append hnodup (by simp) ?_
        intro x hx hy
        simp only [List.map_cons, List.map_nil, List.mem_singleton] at hy
        obtain ⟨z, hz, hzx⟩ := List.mem_map.mp hx
        exact hfresh z hz (hzx.trans hy)
      have hsortedself : ∀ x ∈ sorted, x.id ≠ selfKey.id := by
        intro x hx
        rcases (hmem x).mp hx with hxl | rfl
        · exact hself x hxl
        · exact hos
      by_cases hK : Node.K < sorted.length
      · rw [if_pos hK]
        refine ⟨?_, ?_, ?_, ?_⟩
        · rw [List.length_dropLast, hsortedlen]
          omega
        · intro x hx
          exact hsortedself x ((List.dropLast_sublist sorted).subset hx)
        · exact List.Nodup.sublist ((List.dropLast_sublist sorted).map HashKey.id) hsortednodup
        · exact hsortedsorted.sublist (List.dropLast_sublist sorted)
      · rw [if_neg hK]
        exact ⟨Nat.not_lt.mp hK, hsortedself, hsortednodup, hsortedsorted⟩

lemma bucketInv_foldl (selfKey : HashKey) (others : List HashKey) :
    ∀ l, BucketInv selfKey l →
      BucketInv selfKey (others.foldl (fun b o => bucketsAfterAdd selfKey o b) l) := by
  induction others with
  | nil => intro l h; exact h
  | cons o os ih =>
    intro l h
    rw [List.foldl_cons]
    exact ih _ (bucketInv_step selfKey o l h)

/-! ## Concrete demonstration material -/

/-- A concrete stand-in for the keccak256 numeric hash, chosen so that the hash
values of `"a"` and `"b"` (1 and 2) are equidistant — in Hamming weight — from
the hash value 0 of `"t"`. -/
def hashDemo : String → Nat := fun s => if s = "a" then 1 else if s = "b" then 2 else 0

/-- The state of node `"a"` in the two-node network `joinNetwork` builds under
`hashDemo`. -/
def cycleNodeA : Node := ⟨⟨"a", 1⟩, [], [⟨"b", 2⟩]⟩

/-- The state of node `"b"` in the same network. -/
def cycleNodeB : Node := ⟨⟨"b", 2⟩, [], [⟨"a", 1⟩]⟩

/-- The two-node heap with mutual routing-table references. -/
def cycleHeap : Heap := [cycleNodeA, cycleNodeB]

/-! ## Claim theorems -/

/-- Claim C9: the distance function is zero on equal arguments and symmetric. -/
theorem xorDistance_zero_and_symm :
    (∀ a : HashKey, Node.xorDistance a a = 0)
    ∧ ∀ a b : HashKey, Node.xorDistance a b = Node.xorDistance b a := by
  constructor
  · intro a
    simp [Node.xorDistance, Nat.xor_self, popCount, popCountAux]
  · intro a b
    simp [Node.xorDistance, Nat.xor_comm]

/-- Modelled from the spec: §4.1 defines `distance(a, b)` as "the bitwise XOR
of the two identities' numeric representations, interpreted as a non-negative
integer" — the raw XOR value. Stated only for comparison against the source's
`Node.xorDistance`. -/
def xorDistanceSpecRaw (a b : HashKey) : Nat :=
  a.hash ^^^ b.hash

/-- Claim C7, counterexample: on hashes 3 and 0 the source's distance is the
Hamming weight 2, not the raw XOR value 3, so the routing/placement distance is
not the bitwise-XOR integer the claim describes. -/
theorem xorDistance_raw_xor_counterexample :
    Node.xorDistance ⟨"x", 3⟩ ⟨"y", 0⟩ = 2
    ∧ xorDistanceSpecRaw ⟨"x", 3⟩ ⟨"y", 0⟩ = 3
    ∧ Node.xorDistance ⟨"x", 3⟩ ⟨"y", 0⟩ ≠ xorDistanceSpecRaw ⟨"x", 3⟩ ⟨"y", 0⟩ := by
  refine ⟨rfl, rfl, by decide⟩

/-- Claim C7, amended: the distance used everywhere is the Hamming weight
(number of 1 digits in the binary expansion) of the XOR of the two hashes. -/
theorem xorDistance_eq_hammingWeight (a b : HashKey) :
    Node.xorDistance a b = (Nat.digits 2 (a.hash ^^^ b.hash)).count 1 :=
  popCount_eq_digits (a.hash ^^^ b.hash)

/-- Claim C6, counterexample: node `"a"` (hash 1) and its only neighbour `"b"`
(hash 2) are equidistant from the target (hash 0), yet `findClosestNode`
recurses into the neighbour and returns it instead of returning self: the
reduce `aDistance < bDistance ? a : b` gives ties to the neighbour. -/
theorem findClosest_tie_recurses_into_neighbour :
    Node.xorDistance ⟨"a", 1⟩ ⟨"t", 0⟩ = Node.xorDistance ⟨"b", 2⟩ ⟨"t", 0⟩
    ∧ Node.findClosestNodeFuel [⟨⟨"a", 1⟩, [], [⟨"b", 2⟩]⟩, ⟨⟨"b", 2⟩, [], []⟩] 3
        ⟨⟨"a", 1⟩, [], [⟨"b", 2⟩]⟩ ⟨"t", 0⟩ = some ⟨⟨"b", 2⟩, [], []⟩
    ∧ (⟨⟨"b", 2⟩, [], []⟩ : Node) ≠ ⟨⟨"a", 1⟩, [], [⟨"b", 2⟩]⟩ := by
  refine ⟨by decide, rfl, by decide⟩

/-- Claim C6, amended: `findClosestNode` returns self without recursing when
self is strictly closer to the target than every routing-table entry (in
particular when the table is empty); on a tie the neighbour wins the reduce
and the function recurses into it. -/
theorem findClosest_returns_self_of_strictly_closer (net : Heap) (fuel : Nat)
    (self : Node) (k : HashKey)
    (h : ∀ x ∈ self.kBuckets, Node.xorDistance self.key k < Node.xorDistance x k) :
    Node.findClosestNodeFuel net (fuel + 1) self k = some self :=
  findClosest_self net fuel self k h

/-- Witness for the amended C6 theorem at a concrete strictly-closer input. -/
theorem findClosest_returns_self_witness :
    (∀ x ∈ (⟨⟨"a", 1⟩, [], [⟨"b", 2⟩]⟩ : Node).kBuckets,
        Node.xorDistance ⟨"a", 1⟩ ⟨"t", 1⟩ < Node.xorDistance x ⟨"t", 1⟩)
    ∧ Node.findClosestNodeFuel [] 1 ⟨⟨"a", 1⟩, [], [⟨"b", 2⟩]⟩ ⟨"t", 1⟩
        = some ⟨⟨"a", 1⟩, [], [⟨"b", 2⟩]⟩ :=
  ⟨by decide, findClosest_returns_self_of_strictly_closer [] 0
    ⟨⟨"a", 1⟩, [], [⟨"b", 2⟩]⟩ ⟨"t", 1⟩ (by decide)⟩

/-- Claim C10: `Node.getData` returns `null` when no entry exists for the key
and also when the stored entry's value is `null` or `undefined` (the `?? null`
coalescing), and `retrieveData` reports exactly the winning node's `getData`
result — so a stored null value is indistinguishable from an absent key at the
public interface. -/
theorem getData_null_indistinguishable :
    (∀ (n : Node) (k : HashKey),
        n.data.find? (fun e => e.1 == k.id) = none → n.getData k = JSVal.vNull)
    ∧ (∀ (n : Node) (k : HashKey) (ent : String × JSVal),
        n.data.find? (fun e => e.1 == k.id) = some ent → ent.2 = JSVal.vNull →
          n.getData k = JSVal.vNull)
    ∧ (∀ (n : Node) (k : HashKey) (ent : String × JSVal),
        n.data.find? (fun e => e.1 == k.id) = some ent → ent.2 = JSVal.vUndefined →
          n.getData k = JSVal.vNull)
    ∧ (∀ (H : String → Nat) (dht : KademliaDHT) (i fuel : Nat) (kA : KeyArg)
        (nid : String) (entry closest : Node),
        (dht.nodes.length == 0) = false →
        dht.getRandomNode i = some nid →
        findNode dht.heap nid = some entry →
        Node.findClosestNodeFuel dht.heap fuel entry (HashKey.toKey H kA) = some closest →
          KademliaDHT.retrieveDataFuel H dht i fuel kA
            = Except.ok (closest.getData (HashKey.toKey H kA))) := by
  refine ⟨?_, ?_, ?_, ?_⟩
  · intro n k h
    simp [Node.getData, mapGetJS, h, nullish]
  · intro n k ent h h2
    simp [Node.getData, mapGetJS, h, h2, nullish]
  · intro n k ent h h2
    simp [Node.getData, mapGetJS, h, h2, nullish]
  · intro H dht i fuel kA nid entry closest hlen hrand hfind hclosest
    rw [KademliaDHT.retrieveDataFuel, if_neg (by simp_all)]
    simp only [hrand, hfind, hclosest]

/-- Witness for C10 at concrete inputs: an absent key, a stored `null`, a
stored `undefined`, and a retrieval over a one-node network holding a `null`
value — all reported as `null`. -/
theorem getData_null_indistinguishable_witness :
    (⟨⟨"n", 5⟩, [], []⟩ : Node).getData ⟨"k", 7⟩ = JSVal.vNull
    ∧ (⟨⟨"n", 5⟩, [("k", JSVal.vNull)], []⟩ : Node).getData ⟨"k", 7⟩ = JSVal.vNull
    ∧ (⟨⟨"n", 5⟩, [("k", JSVal.vUndefined)], []⟩ : Node).getData ⟨"k", 7⟩ = JSVal.vNull
    ∧ KademliaDHT.retrieveDataFuel (fun _ => 0)
        ⟨[⟨⟨"n", 0⟩, [("k", JSVal.vNull)], []⟩], ["n"]⟩ 0 1 (KeyArg.str "k")
        = Except.ok ((⟨⟨"n", 0⟩, [("k", JSVal.vNull)], []⟩ : Node).getData
            (HashKey.toKey (fun _ => 0) (KeyArg.str "k"))) :=
  ⟨getData_null_indistinguishable.1 ⟨⟨"n", 5⟩, [], []⟩ ⟨"k", 7⟩ rfl,
   getData_null_indistinguishable.2.1 ⟨⟨"n", 5⟩, [("k", JSVal.vNull)], []⟩ ⟨"k", 7⟩ _ rfl rfl,
   getData_null_indistinguishable.2.2.1 ⟨⟨"n", 5⟩, [("k", JSVal.vUndefined)], []⟩ ⟨"k", 7⟩ _ rfl rfl,
   getData_null_indistinguishable.2.2.2 (fun _ => 0)
     ⟨[⟨⟨"n", 0⟩, [("k", JSVal.vNull)], []⟩], ["n"]⟩ 0 1 (KeyArg.str "k") "n"
     ⟨⟨"n", 0⟩, [("k", JSVal.vNull)], []⟩ ⟨⟨"n", 0⟩, [("k", JSVal.vNull)], []⟩
     rfl rfl rfl rfl⟩

/-- Claim C2, counterexample: on an empty network `storeData` and
`retrieveData` take the `throw new Error(...)` path (modelled by
`Except.error` carrying the thrown message), not a plain return or
result-value report as the claim states. -/
theorem emptyNetwork_throws_counterexample :
    KademliaDHT.storeDataFuel (fun _ => 0) emptyDHT 0 3 (KeyArg.str "k") "v"
      = Except.error "No nodes in the network to store data."
    ∧ KademliaDHT.retrieveDataFuel (fun _ => 0) emptyDHT 0 3 (KeyArg.str "k")
      = Except.error "No nodes in the network to retrieve data." :=
  ⟨rfl, rfl⟩

/-- Claim C2, amended: on a network with zero members both operations throw an
`Error` with the corresponding message before touching any state (the thrown
path produces no successor state at all, so nothing is mutated). -/
theorem emptyNetwork_reports (H : String → Nat) (dht : KademliaDHT) (i fuel : Nat)
    (kS kR : KeyArg) (v : String) (h : dht.nodes = []) :
    KademliaDHT.storeDataFuel H dht i fuel kS v
      = Except.error "No nodes in the network to store data."
    ∧ KademliaDHT.retrieveDataFuel H dht i fuel kR
      = Except.error "No nodes in the network to retrieve data." := by
  constructor
  · rw [KademliaDHT.storeDataFuel, if_pos (by simp [h])]
  · rw [KademliaDHT.retrieveDataFuel, if_pos (by simp [h])]

/-- Witness for the amended C2 theorem on the freshly constructed empty DHT. -/
theorem emptyNetwork_reports_witness :
    KademliaDHT.storeDataFuel (fun _ => 1) emptyDHT 2 5 (KeyArg.str "x") "v"
      = Except.error "No nodes in the network to store data."
    ∧ KademliaDHT.retrieveDataFuel (fun _ => 1) emptyDHT 2 5 (KeyArg.str "y")
      = Except.error "No nodes in the network to retrieve data." :=
  emptyNetwork_reports (fun _ => 1) emptyDHT 2 5 (KeyArg.str "x") (KeyArg.str "y") "v" rfl

/-- Claim C1 (code bug): in the two-node network that `joinNetwork` itself
builds under `hashDemo`, the nodes `"a"` (hash 1) and `"b"` (hash 2) are
equidistant from the target hash 0, each holds the other in its routing table,
and `findClosestNode` started anywhere recurses forever — it never returns,
for any number of expansions, and `storeData` on that network therefore never
returns either. The code keeps no visited set, contradicting both its own
comment ("Keep track of visited nodes to avoid cycles") and the claimed
`n + 1` expansion bound. -/
theorem findClosestNode_cycles_forever :
    ((KademliaDHT.joinNetworkFuel hashDemo 1 emptyDHT (Node.new hashDemo "a")).bind
      (fun d => KademliaDHT.joinNetworkFuel hashDemo 1 d (Node.new hashDemo "b")))
      = some ⟨cycleHeap, ["a", "b"]⟩
    ∧ Node.xorDistance cycleNodeA.key ⟨"t", 0⟩ = Node.xorDistance cycleNodeB.key ⟨"t", 0⟩
    ∧ (∀ fuel, Node.findClosestNodeFuel cycleHeap fuel cycleNodeA ⟨"t", 0⟩ = none
        ∧ Node.findClosestNodeFuel cycleHeap fuel cycleNodeB ⟨"t", 0⟩ = none)
    ∧ ∀ fuel, KademliaDHT.storeDataFuel hashDemo ⟨cycleHeap, ["a", "b"]⟩ 0 fuel
        (KeyArg.str "t") "v" = Except.error "lookup did not return" := by
  have hdiv : ∀ fuel, Node.findClosestNodeFuel cycleHeap fuel cycleNodeA ⟨"t", 0⟩ = none
      ∧ Node.findClosestNodeFuel cycleHeap fuel cycleNodeB ⟨"t", 0⟩ = none := by
    intro fuel
    induction fuel with
    | zero => exact ⟨rfl, rfl⟩
    | succ f ih =>
      refine ⟨?_, ?_⟩
      · have hstep : Node.findClosestNodeFuel cycleHeap (f + 1) cycleNodeA ⟨"t", 0⟩
            = Node.findClosestNodeFuel cycleHeap f cycleNodeB ⟨"t", 0⟩ := rfl
        rw [hstep, ih.2]
      · have hstep : Node.findClosestNodeFuel cycleHeap (f + 1) cycleNodeB ⟨"t", 0⟩
            = Node.findClosestNodeFuel cycleHeap f cycleNodeA ⟨"t", 0⟩ := rfl
        rw [hstep, ih.1]
  refine ⟨rfl, by decide, hdiv, ?_⟩
  intro fuel
  have hstep : KademliaDHT.storeDataFuel hashDemo ⟨cycleHeap, ["a", "b"]⟩ 0 fuel
      (KeyArg.str "t") "v"
      = match Node.findClosestNodeFuel cycleHeap fuel cycleNodeA ⟨"t", 0⟩ with
        | none => Except.error "lookup did not return"
        | some closest =>
          Except.ok ⟨setNode cycleHeap (closest.storeData ⟨"t", 0⟩ (JSVal.vStr "v")), ["a", "b"]⟩ := rfl
  rw [hstep, (hdiv fuel).1]

/-! ## Evaluation lemmas for network construction -/

lemma join_first (H : String → Nat) (f : Nat) (n : Node) :
    KademliaDHT.joinNetworkFuel H f emptyDHT n = some ⟨[n], [n.key.id]⟩ := by
  simp [KademliaDHT.joinNetworkFuel, emptyDHT, addObject, findNode]

lemma join_second (H : String → Nat) (f : Nat) (aid bid : String) (hab : aid ≠ bid) :
    KademliaDHT.joinNetworkFuel H f ⟨[Node.new H aid], [aid]⟩ (Node.new H bid)
      = some ⟨[⟨⟨aid, H aid⟩, [], [⟨bid, H bid⟩]⟩, ⟨⟨bid, H bid⟩, [], [⟨aid, H aid⟩]⟩],
          [aid, bid]⟩ := by
  have hba : bid ≠ aid := hab.symm
  simp [KademliaDHT.joinNetworkFuel, addObject, findNode, Node.new, List.foldlM,
    Node.addToRoutingTableFuel, Node.transferDataFuel, bucketsInsert, sortByDist,
    setNode, distLe, Node.K, hab, hba]

lemma join_again (H : String → Nat) (f : Nat) (aid bid : String) (hab : aid ≠ bid) :
    KademliaDHT.joinNetworkFuel H f
      ⟨[⟨⟨aid, H aid⟩, [], [⟨bid, H bid⟩]⟩, ⟨⟨bid, H bid⟩, [], [⟨aid, H aid⟩]⟩], [aid, bid]⟩
      (Node.new H bid)
      = some ⟨[⟨⟨aid, H aid⟩, [], [⟨bid, H bid⟩]⟩, ⟨⟨bid, H bid⟩, [], [⟨aid, H aid⟩]⟩],
          [aid, bid, bid]⟩ := by
  have hba : bid ≠ aid := hab.symm
  simp [KademliaDHT.joinNetworkFuel, addObject, findNode, Node.new, List.foldlM,
    Node.addToRoutingTableFuel, Node.transferDataFuel, bucketsInsert, sortByDist,
    setNode, distLe, Node.K, hab, hba]

/-- Claim C4: in the two-node network `{A, B}` built by the joins, with B's
identity strictly closer to the stored key's identity than A's, storing via
either entry node places the value in B's local store only, and retrieval via
either entry node returns the value. -/
theorem store_retrieve_roundtrip (H : String → Nat) (aid bid s v : String)
    (i j fuel : Nat) (hab : aid ≠ bid)
    (hd : Node.xorDistance ⟨bid, H bid⟩ ⟨s, H s⟩ < Node.xorDistance ⟨aid, H aid⟩ ⟨s, H s⟩)
    (hi : i < 2) (hj : j < 2) :
    ∃ net2 dht2 : KademliaDHT,
      (KademliaDHT.joinNetworkFuel H fuel emptyDHT (Node.new H aid)).bind
        (fun d => KademliaDHT.joinNetworkFuel H fuel d (Node.new H bid)) = some net2
      ∧ KademliaDHT.storeDataFuel H net2 i (fuel + 2) (KeyArg.str s) v = Except.ok dht2
      ∧ (dataOf dht2 bid).find? (fun e => e.1 == s) = some (s, JSVal.vStr v)
      ∧ (dataOf dht2 aid).find? (fun e => e.1 == s) = none
      ∧ KademliaDHT.retrieveDataFuel H dht2 j (fuel + 2) (KeyArg.str s)
          = Except.ok (JSVal.vStr v) := by
  have hba : bid ≠ aid := hab.symm
  refine ⟨⟨[⟨⟨aid, H aid⟩, [], [⟨bid, H bid⟩]⟩, ⟨⟨bid, H bid⟩, [], [⟨aid, H aid⟩]⟩], [aid, bid]⟩,
    ⟨[⟨⟨aid, H aid⟩, [], [⟨bid, H bid⟩]⟩, ⟨⟨bid, H bid⟩, [(s, JSVal.vStr v)], [⟨aid, H aid⟩]⟩],
      [aid, bid]⟩, ?_, ?_, ?_, ?_, ?_⟩
  · rw [join_first]
    show KademliaDHT.joinNetworkFuel H fuel ⟨[Node.new H aid], [aid]⟩ (Node.new H bid) = _
    exact join_second H fuel aid bid hab
  · -- the lookup from A hops to B, the lookup from B stays at B
    have hfcA : Node.findClosestNodeFuel
        [⟨⟨aid, H aid⟩, [], [⟨bid, H bid⟩]⟩, ⟨⟨bid, H bid⟩, [], [⟨aid, H aid⟩]⟩] (fuel + 2)
        ⟨⟨aid, H aid⟩, [], [⟨bid, H bid⟩]⟩ ⟨s, H s⟩
        = some ⟨⟨bid, H bid⟩, [], [⟨aid, H aid⟩]⟩ := by
      rw [findClosest_hop _ (fuel + 1) _ ⟨⟨bid, H bid⟩, [], [⟨aid, H aid⟩]⟩ _ ⟨bid, H bid⟩
        (by simp)
        (by
          intro x hx
          rcases hx with rfl | hx
          · exact Or.inr hd
          · simp at hx
            subst hx
            exact Or.inl rfl)
        (by simp [hab])
        (by simp [findNode, hab])]
      apply findClosest_self
      intro x hx
      simp at hx
      subst hx
      exact hd
    have hfcB : Node.findClosestNodeFuel
        [⟨⟨aid, H aid⟩, [], [⟨bid, H bid⟩]⟩, ⟨⟨bid, H bid⟩, [], [⟨aid, H aid⟩]⟩] (fuel + 2)
        ⟨⟨bid, H bid⟩, [], [⟨aid, H aid⟩]⟩ ⟨s, H s⟩
        = some ⟨⟨bid, H bid⟩, [], [⟨aid, H aid⟩]⟩ := by
      apply findClosest_self
      intro x hx
      simp at hx
      subst hx
      exact hd
    interval_cases i
    · simp [KademliaDHT.storeDataFuel, KademliaDHT.getRandomNode, findNode, hab, hba,
        HashKey.toKey, hfcA, Node.storeData, mapSetJS, setNode]
    · simp [KademliaDHT.storeDataFuel, KademliaDHT.getRandomNode, findNode, hab, hba,
        HashKey.toKey, hfcB, Node.storeData, mapSetJS, setNode]
  · simp [dataOf, findNode, hab, hba]
  · simp [dataOf, findNode, hab, hba]
  · have hfcA : Node.findClosestNodeFuel
        [⟨⟨aid, H aid⟩, [], [⟨bid, H bid⟩]⟩,
          ⟨⟨bid, H bid⟩, [(s, JSVal.vStr v)], [⟨aid, H aid⟩]⟩] (fuel + 2)
        ⟨⟨aid, H aid⟩, [], [⟨bid, H bid⟩]⟩ ⟨s, H s⟩
        = some ⟨⟨bid, H bid⟩, [(s, JSVal.vStr v)], [⟨aid, H aid⟩]⟩ := by
      rw [findClosest_hop _ (fuel + 1) _ ⟨⟨bid, H bid⟩, [(s, JSVal.vStr v)], [⟨aid, H aid⟩]⟩
        _ ⟨bid, H bid⟩
        (by simp)
        (by
          intro x hx
          rcases hx with rfl | hx
          · exact Or.inr hd
          · simp at hx
            subst hx
            exact Or.inl rfl)
        (by simp [hab])
        (by simp [findNode, hab])]
      apply findClosest_self
      intro x hx
      simp at hx
      subst hx
      exact hd
    have hfcB : Node.findClosestNodeFuel
        [⟨⟨aid, H aid⟩, [], [⟨bid, H bid⟩]⟩,
          ⟨⟨bid, H bid⟩, [(s, JSVal.vStr v)], [⟨aid, H aid⟩]⟩] (fuel + 2)
        ⟨⟨bid, H bid⟩, [(s, JSVal.vStr v)], [⟨aid, H aid⟩]⟩ ⟨s, H s⟩
        = some ⟨⟨bid, H bid⟩, [(s, JSVal.vStr v)], [⟨aid, H aid⟩]⟩ := by
      apply findClosest_self
      intro x hx
      simp at hx
      subst hx
      exact hd
    interval_cases j
    · simp [KademliaDHT.retrieveDataFuel, KademliaDHT.getRandomNode, findNode, hab, hba,
        HashKey.toKey, hfcA, Node.getData, mapGetJS, nullish]
    · simp [KademliaDHT.retrieveDataFuel, KademliaDHT.getRandomNode, findNode, hab, hba,
        HashKey.toKey, hfcB, Node.getData, mapGetJS, nullish]

/-- A concrete hash assignment making `"b"` strictly closer than `"a"` to the
key `"kb"` (distances 0 and 3). -/
def hashDemoB : String → Nat :=
  fun s => if s = "a" then 1 else if s = "b" then 6 else if s = "kb" then 6 else 0

/-- Witness for C4 at a concrete instance: hashes 1 (`"a"`), 6 (`"b"`), 6
(key `"kb"`); B's distance 0 beats A's distance 3. -/
theorem store_retrieve_roundtrip_witness :
    ∃ net2 dht2 : KademliaDHT,
      (KademliaDHT.joinNetworkFuel hashDemoB 0 emptyDHT (Node.new hashDemoB "a")).bind
        (fun d => KademliaDHT.joinNetworkFuel hashDemoB 0 d (Node.new hashDemoB "b")) = some net2
      ∧ KademliaDHT.storeDataFuel hashDemoB net2 0 2 (KeyArg.str "kb") "v" = Except.ok dht2
      ∧ (dataOf dht2 "b").find? (fun e => e.1 == "kb") = some ("kb", JSVal.vStr "v")
      ∧ (dataOf dht2 "a").find? (fun e => e.1 == "kb") = none
      ∧ KademliaDHT.retrieveDataFuel hashDemoB dht2 1 2 (KeyArg.str "kb")
          = Except.ok (JSVal.vStr "v") :=
  store_retrieve_roundtrip hashDemoB "a" "b" "kb" "v" 0 1 0 (by decide) (by decide)
    (by decide) (by decide)

/-- Claim C8, counterexample: joining the same node object (`"b"`) twice leaves
its id twice in the membership array — `joinNetwork` pushes unconditionally —
so the membership count is 2, not 1 as the claim states. -/
theorem join_twice_duplicates_membership :
    (((KademliaDHT.joinNetworkFuel hashDemo 1 emptyDHT (Node.new hashDemo "a")).bind
      (fun d => KademliaDHT.joinNetworkFuel hashDemo 1 d (Node.new hashDemo "b"))).bind
      (fun d => KademliaDHT.joinNetworkFuel hashDemo 1 d (Node.new hashDemo "b"))).map
        (fun d => d.nodes) = some ["a", "b", "b"]
    ∧ (["a", "b", "b"] : List String).count "b" = 2 := by
  exact ⟨rfl, by decide⟩

/-- Claim C8, amended: the second join of the same node object pushes a second
occurrence of it into the membership array (no deduplication there), while
every node's neighbour list still holds its identity at most once (the
`addToRoutingTable` guards absorb the duplicate). -/
theorem join_same_node_twice (H : String → Nat) (aid bid : String)
    (hab : aid ≠ bid) (f1 f2 f3 : Nat) :
    ∃ d : KademliaDHT,
      (((KademliaDHT.joinNetworkFuel H f1 emptyDHT (Node.new H aid)).bind
        (fun d1 => KademliaDHT.joinNetworkFuel H f2 d1 (Node.new H bid))).bind
        (fun d2 => KademliaDHT.joinNetworkFuel H f3 d2 (Node.new H bid))) = some d
      ∧ d.nodes.count bid = 2
      ∧ ∀ n ∈ d.heap, (n.kBuckets.countP (fun x => x.id == bid)) ≤ 1 := by
  have hba : bid ≠ aid := hab.symm
  refine ⟨⟨[⟨⟨aid, H aid⟩, [], [⟨bid, H bid⟩]⟩, ⟨⟨bid, H bid⟩, [], [⟨aid, H aid⟩]⟩],
    [aid, bid, bid]⟩, ?_, ?_, ?_⟩
  · rw [join_first]
    show ((KademliaDHT.joinNetworkFuel H f2 ⟨[Node.new H aid], [aid]⟩ (Node.new H bid)).bind
      (fun d2 => KademliaDHT.joinNetworkFuel H f3 d2 (Node.new H bid))) = _
    rw [join_second H f2 aid bid hab]
    show KademliaDHT.joinNetworkFuel H f3 _ (Node.new H bid) = _
    exact join_again H f3 aid bid hab
  · simp [List.count_cons, hba]
  · intro n hn
    simp only [List.mem_cons, List.not_mem_nil, or_false] at hn
    rcases hn with rfl | rfl
    · simp [List.countP_cons]
    · simp [List.countP_cons, hab]

/-- Witness for the amended C8 theorem at concrete ids. -/
theorem join_same_node_twice_witness :
    ∃ d : KademliaDHT,
      (((KademliaDHT.joinNetworkFuel hashDemo 2 emptyDHT (Node.new hashDemo "a")).bind
        (fun d1 => KademliaDHT.joinNetworkFuel hashDemo 2 d1 (Node.new hashDemo "b"))).bind
        (fun d2 => KademliaDHT.joinNetworkFuel hashDemo 2 d2 (Node.new hashDemo "b"))) = some d
      ∧ d.nodes.count "b" = 2
      ∧ ∀ n ∈ d.heap, (n.kBuckets.countP (fun x => x.id == "b")) ≤ 1 :=
  join_same_node_twice hashDemo "a" "b" (by decide) 2 2 2

/-! ## Step-evaluation lemmas for `addToRoutingTable` and `transferData` -/

lemma addToRoutingTable_self_eval (H : String → Nat) (net : Heap) (fuel : Nat)
    (sid : String) (self : Node) (hs : findNode net sid = some self) :
    Node.addToRoutingTableFuel H net fuel sid sid = some net := by
  simp only [Node.addToRoutingTableFuel, hs, beq_self_eq_true, if_true]

lemma addToRoutingTable_existing_eval (H : String → Nat) (net : Heap) (fuel : Nat)
    (sid oid : String) (self other : Node)
    (hs : findNode net sid = some self) (ho : findNode net oid = some other)
    (hne : (self.key.id == other.key.id) = false)
    (hdup : (self.kBuckets.find? (fun k => k.id == other.key.id)).isSome = true) :
    Node.addToRoutingTableFuel H net fuel sid oid = some net := by
  simp only [Node.addToRoutingTableFuel, hs, ho, hne, hdup, Bool.false_eq_true,
    if_false, if_true]

lemma addToRoutingTable_fresh_eval (H : String → Nat) (net : Heap) (fuel : Nat)
    (sid oid : String) (self other : Node)
    (hs : findNode net sid = some self) (ho : findNode net oid = some other)
    (hne : (self.key.id == other.key.id) = false)
    (hdup : self.kBuckets.find? (fun k => k.id == other.key.id) = none) :
    Node.addToRoutingTableFuel H net fuel sid oid =
      Node.transferDataFuel H
        (setNode net { self with kBuckets := bucketsInsert self.key other.key self.kBuckets })
        fuel sid oid := by
  simp only [Node.addToRoutingTableFuel, hs, ho, hne, hdup, Option.isSome_none,
    Bool.false_eq_true, if_false]

lemma transferData_nil_eval (H : String → Nat) (net : Heap) (fuel : Nat)
    (sid oid : String) (self : Node)
    (hs : findNode net sid = some self) (hdata : self.data = []) :
    Node.transferDataFuel H net fuel sid oid = some net := by
  simp only [Node.transferDataFuel, hs, hdata, List.foldlM_nil, Option.pure_def]

lemma transferData_single_migrate_eval (H : String → Nat) (net : Heap) (fuel : Nat)
    (sid nid : String) (self newNode selfAfter : Node) (s : String) (v : JSVal)
    (hs : findNode net sid = some self) (hdata : self.data = [(s, v)])
    (hclosest : Node.findClosestNodeFuel net fuel self ⟨s, H s⟩ = some newNode)
    (hn : findNode net nid = some newNode)
    (hsa : findNode (setNode net (newNode.storeData ⟨s, H s⟩ v)) sid = some selfAfter) :
    Node.transferDataFuel H net fuel sid nid =
      some (setNode (setNode net (newNode.storeData ⟨s, H s⟩ v))
        { selfAfter with data := mapDeleteJS selfAfter.data s }) := by
  simp only [Node.transferDataFuel, transferStep, hs, hdata, List.foldlM_cons,
    List.foldlM_nil, HashKey.toKey, hclosest, hn, hsa, Option.bind_eq_bind,
    Option.some_bind, beq_self_eq_true, if_true, Option.pure_def]

lemma transferData_single_keep_eval (H : String → Nat) (net : Heap) (fuel : Nat)
    (sid nid : String) (self newNode closest : Node) (s : String) (v : JSVal)
    (hs : findNode net sid = some self) (hdata : self.data = [(s, v)])
    (hclosest : Node.findClosestNodeFuel net fuel self ⟨s, H s⟩ = some closest)
    (hn : findNode net nid = some newNode)
    (hne : (closest.key.id == newNode.key.id) = false) :
    Node.transferDataFuel H net fuel sid nid = some net := by
  simp only [Node.transferDataFuel, transferStep, hs, hdata, List.foldlM_cons,
    List.foldlM_nil, HashKey.toKey, hclosest, hn, hne, Option.bind_eq_bind,
    Option.some_bind, Bool.false_eq_true, if_false, Option.pure_def]

lemma join_c_holderB_eval (H : String → Nat) (aid bid cid s v : String) (fuel : Nat)
    (hab : aid ≠ bid) (hac : aid ≠ cid) (hbc : bid ≠ cid)
    (hCA : Node.xorDistance ⟨cid, H cid⟩ ⟨s, H s⟩ < Node.xorDistance ⟨aid, H aid⟩ ⟨s, H s⟩)
    (hCB : Node.xorDistance ⟨cid, H cid⟩ ⟨s, H s⟩ < Node.xorDistance ⟨bid, H bid⟩ ⟨s, H s⟩) :
    KademliaDHT.joinNetworkFuel H (fuel + 2)
      ⟨[⟨⟨aid, H aid⟩, [], [⟨bid, H bid⟩]⟩,
        ⟨⟨bid, H bid⟩, [(s, JSVal.vStr v)], [⟨aid, H aid⟩]⟩], [aid, bid]⟩
      (Node.new H cid)
      = some ⟨[⟨⟨aid, H aid⟩, [], sortByDist ⟨aid, H aid⟩ [⟨bid, H bid⟩, ⟨cid, H cid⟩]⟩,
          ⟨⟨bid, H bid⟩, [], sortByDist ⟨bid, H bid⟩ [⟨aid, H aid⟩, ⟨cid, H cid⟩]⟩,
          ⟨⟨cid, H cid⟩, [(s, JSVal.vStr v)],
            sortByDist ⟨cid, H cid⟩ [⟨aid, H aid⟩, ⟨bid, H bid⟩]⟩],
          [aid, bid, cid]⟩ := by
  have hba := hab.symm
  have hca := hac.symm
  have hcb := hbc.symm
  have hbiA : bucketsInsert ⟨aid, H aid⟩ ⟨cid, H cid⟩ [⟨bid, H bid⟩]
      = sortByDist ⟨aid, H aid⟩ [⟨bid, H bid⟩, ⟨cid, H cid⟩] := by
    simp [bucketsInsert, length_sortByDist, Node.K]
  have hbiC1 : bucketsInsert ⟨cid, H cid⟩ ⟨aid, H aid⟩ ([] : List HashKey)
      = [⟨aid, H aid⟩] := by
    simp [bucketsInsert, length_sortByDist, Node.K, sortByDist]
  have hbiB : bucketsInsert ⟨bid, H bid⟩ ⟨cid, H cid⟩ [⟨aid, H aid⟩]
      = sortByDist ⟨bid, H bid⟩ [⟨aid, H aid⟩, ⟨cid, H cid⟩] := by
    simp [bucketsInsert, length_sortByDist, Node.K]
  have hbiC2 : bucketsInsert ⟨cid, H cid⟩ ⟨bid, H bid⟩ [⟨aid, H aid⟩]
      = sortByDist ⟨cid, H cid⟩ [⟨aid, H aid⟩, ⟨bid, H bid⟩] := by
    simp [bucketsInsert, length_sortByDist, Node.K]
  -- step 1: a learns c; a holds no data
  have t1 : Node.addToRoutingTableFuel H
      [⟨⟨aid, H aid⟩, [], [⟨bid, H bid⟩]⟩,
        ⟨⟨bid, H bid⟩, [(s, JSVal.vStr v)], [⟨aid, H aid⟩]⟩,
        ⟨⟨cid, H cid⟩, [], []⟩] (fuel + 2) aid cid
      = some [⟨⟨aid, H aid⟩, [], sortByDist ⟨aid, H aid⟩ [⟨bid, H bid⟩, ⟨cid, H cid⟩]⟩,
          ⟨⟨bid, H bid⟩, [(s, JSVal.vStr v)], [⟨aid, H aid⟩]⟩,
          ⟨⟨cid, H cid⟩, [], []⟩] := by
    rw [addToRoutingTable_fresh_eval H _ (fuel + 2) aid cid
      ⟨⟨aid, H aid⟩, [], [⟨bid, H bid⟩]⟩ ⟨⟨cid, H cid⟩, [], []⟩
      (by simp [findNode]) (by simp [findNode, hac, hbc]) (by simp [hac]) (by simp [hbc])]
    rw [show setNode [⟨⟨aid, H aid⟩, [], [⟨bid, H bid⟩]⟩,
        ⟨⟨bid, H bid⟩, [(s, JSVal.vStr v)], [⟨aid, H aid⟩]⟩, ⟨⟨cid, H cid⟩, [], []⟩]
        { (⟨⟨aid, H aid⟩, [], [⟨bid, H bid⟩]⟩ : Node) with
            kBuckets := bucketsInsert ⟨aid, H aid⟩ ⟨cid, H cid⟩ [⟨bid, H bid⟩] }
        = [⟨⟨aid, H aid⟩, [], sortByDist ⟨aid, H aid⟩ [⟨bid, H bid⟩, ⟨cid, H cid⟩]⟩,
            ⟨⟨bid, H bid⟩, [(s, JSVal.vStr v)], [⟨aid, H aid⟩]⟩,
            ⟨⟨cid, H cid⟩, [], []⟩] from by rw [hbiA]; simp [setNode, hba, hca]]
    exact transferData_nil_eval H _ (fuel + 2) aid cid
      ⟨⟨aid, H aid⟩, [], sortByDist ⟨aid, H aid⟩ [⟨bid, H bid⟩, ⟨cid, H cid⟩]⟩
      (by simp [findNode]) rfl
  -- step 2: c learns a; c holds no data
  have t2 : Node.addToRoutingTableFuel H
      [⟨⟨aid, H aid⟩, [], sortByDist ⟨aid, H aid⟩ [⟨bid, H bid⟩, ⟨cid, H cid⟩]⟩,
        ⟨⟨bid, H bid⟩, [(s, JSVal.vStr v)], [⟨aid, H aid⟩]⟩,
        ⟨⟨cid, H cid⟩, [], []⟩] (fuel + 2) cid aid
      = some [⟨⟨aid, H aid⟩, [], sortByDist ⟨aid, H aid⟩ [⟨bid, H bid⟩, ⟨cid, H cid⟩]⟩,
          ⟨⟨bid, H bid⟩, [(s, JSVal.vStr v)], [⟨aid, H aid⟩]⟩,
          ⟨⟨cid, H cid⟩, [], [⟨aid, H aid⟩]⟩] := by
    rw [addToRoutingTable_fresh_eval H _ (fuel + 2) cid aid
      ⟨⟨cid, H cid⟩, [], []⟩
      ⟨⟨aid, H aid⟩, [], sortByDist ⟨aid, H aid⟩ [⟨bid, H bid⟩, ⟨cid, H cid⟩]⟩
      (by simp [findNode, hac, hbc]) (by simp [findNode]) (by simp [hca]) (by simp)]
    rw [show setNode [⟨⟨aid, H aid⟩, [], sortByDist ⟨aid, H aid⟩ [⟨bid, H bid⟩, ⟨cid, H cid⟩]⟩,
        ⟨⟨bid, H bid⟩, [(s, JSVal.vStr v)], [⟨aid, H aid⟩]⟩, ⟨⟨cid, H cid⟩, [], []⟩]
        { (⟨⟨cid, H cid⟩, [], []⟩ : Node) with
            kBuckets := bucketsInsert ⟨cid, H cid⟩ ⟨aid, H aid⟩ ([] : List HashKey) }
        = [⟨⟨aid, H aid⟩, [], sortByDist ⟨aid, H aid⟩ [⟨bid, H bid⟩, ⟨cid, H cid⟩]⟩,
            ⟨⟨bid, H bid⟩, [(s, JSVal.vStr v)], [⟨aid, H aid⟩]⟩,
            ⟨⟨cid, H cid⟩, [], [⟨aid, H aid⟩]⟩] from by rw [hbiC1]; simp [setNode, hac, hbc]]
    exact transferData_nil_eval H _ (fuel + 2) cid aid
      ⟨⟨cid, H cid⟩, [], [⟨aid, H aid⟩]⟩ (by simp [findNode, hac, hbc]) rfl
  -- step 3: b learns c, then migrates its entry to c
  have t3 : Node.addToRoutingTableFuel H
      [⟨⟨aid, H aid⟩, [], sortByDist ⟨aid, H aid⟩ [⟨bid, H bid⟩, ⟨cid, H cid⟩]⟩,
        ⟨⟨bid, H bid⟩, [(s, JSVal.vStr v)], [⟨aid, H aid⟩]⟩,
        ⟨⟨cid, H cid⟩, [], [⟨aid, H aid⟩]⟩] (fuel + 2) bid cid
      = some [⟨⟨aid, H aid⟩, [], sortByDist ⟨aid, H aid⟩ [⟨bid, H bid⟩, ⟨cid, H cid⟩]⟩,
          ⟨⟨bid, H bid⟩, [], sortByDist ⟨bid, H bid⟩ [⟨aid, H aid⟩, ⟨cid, H cid⟩]⟩,
          ⟨⟨cid, H cid⟩, [(s, JSVal.vStr v)], [⟨aid, H aid⟩]⟩] := by
    rw [addToRoutingTable_fresh_eval H _ (fuel + 2) bid cid
      ⟨⟨bid, H bid⟩, [(s, JSVal.vStr v)], [⟨aid, H aid⟩]⟩
      ⟨⟨cid, H cid⟩, [], [⟨aid, H aid⟩]⟩
      (by simp [findNode, hab]) (by simp [findNode, hac, hbc]) (by simp [hbc]) (by simp [hac])]
    rw [show setNode [⟨⟨aid, H aid⟩, [], sortByDist ⟨aid, H aid⟩ [⟨bid, H bid⟩, ⟨cid, H cid⟩]⟩,
        ⟨⟨bid, H bid⟩, [(s, JSVal.vStr v)], [⟨aid, H aid⟩]⟩,
        ⟨⟨cid, H cid⟩, [], [⟨aid, H aid⟩]⟩]
        { (⟨⟨bid, H bid⟩, [(s, JSVal.vStr v)], [⟨aid, H aid⟩]⟩ : Node) with
            kBuckets := bucketsInsert ⟨bid, H bid⟩ ⟨cid, H cid⟩ [⟨aid, H aid⟩] }
        = [⟨⟨aid, H aid⟩, [], sortByDist ⟨aid, H aid⟩ [⟨bid, H bid⟩, ⟨cid, H cid⟩]⟩,
            ⟨⟨bid, H bid⟩, [(s, JSVal.vStr v)], sortByDist ⟨bid, H bid⟩ [⟨aid, H aid⟩, ⟨cid, H cid⟩]⟩,
            ⟨⟨cid, H cid⟩, [], [⟨aid, H aid⟩]⟩] from by rw [hbiB]; simp [setNode, hab, hcb]]
    have hclosest : Node.findClosestNodeFuel
        [⟨⟨aid, H aid⟩, [], sortByDist ⟨aid, H aid⟩ [⟨bid, H bid⟩, ⟨cid, H cid⟩]⟩,
          ⟨⟨bid, H bid⟩, [(s, JSVal.vStr v)], sortByDist ⟨bid, H bid⟩ [⟨aid, H aid⟩, ⟨cid, H cid⟩]⟩,
          ⟨⟨cid, H cid⟩, [], [⟨aid, H aid⟩]⟩] (fuel + 2)
        ⟨⟨bid, H bid⟩, [(s, JSVal.vStr v)], sortByDist ⟨bid, H bid⟩ [⟨aid, H aid⟩, ⟨cid, H cid⟩]⟩
        ⟨s, H s⟩
        = some ⟨⟨cid, H cid⟩, [], [⟨aid, H aid⟩]⟩ := by
      rw [findClosest_hop _ (fuel + 1) _ ⟨⟨cid, H cid⟩, [], [⟨aid, H aid⟩]⟩ _ ⟨cid, H cid⟩
        (mem_sortByDist.mpr (by simp))
        (by
          intro x hx
          rcases hx with rfl | hx
          · exact Or.inr hCB
          · have hx2 := mem_sortByDist.mp hx
            simp only [List.mem_cons, List.not_mem_nil, or_false] at hx2
            rcases hx2 with rfl | rfl
            · exact Or.inr hCA
            · exact Or.inl rfl)
        (by simp [hbc])
        (by simp [findNode, hac, hbc])]
      apply findClosest_self
      intro x hx
      simp only [List.mem_cons, List.not_mem_nil, or_false] at hx
      subst hx
      exact hCA
    rw [transferData_single_migrate_eval H _ (fuel + 2) bid cid
      ⟨⟨bid, H bid⟩, [(s, JSVal.vStr v)], sortByDist ⟨bid, H bid⟩ [⟨aid, H aid⟩, ⟨cid, H cid⟩]⟩
      ⟨⟨cid, H cid⟩, [], [⟨aid, H aid⟩]⟩
      ⟨⟨bid, H bid⟩, [(s, JSVal.vStr v)], sortByDist ⟨bid, H bid⟩ [⟨aid, H aid⟩, ⟨cid, H cid⟩]⟩
      s (JSVal.vStr v)
      (by simp [findNode, hab]) rfl hclosest (by simp [findNode, hac, hbc])
      (by simp [findNode, setNode, Node.storeData, mapSetJS, hab, hac, hbc, hba, hca, hcb])]
    congr 1
    simp [setNode, Node.storeData, mapSetJS, mapDeleteJS, hab, hac, hbc, hba, hca, hcb]
  -- step 4: c learns b; c keeps the entry (it is still the closest)
  have t4 : Node.addToRoutingTableFuel H
      [⟨⟨aid, H aid⟩, [], sortByDist ⟨aid, H aid⟩ [⟨bid, H bid⟩, ⟨cid, H cid⟩]⟩,
        ⟨⟨bid, H bid⟩, [], sortByDist ⟨bid, H bid⟩ [⟨aid, H aid⟩, ⟨cid, H cid⟩]⟩,
        ⟨⟨cid, H cid⟩, [(s, JSVal.vStr v)], [⟨aid, H aid⟩]⟩] (fuel + 2) cid bid
      = some [⟨⟨aid, H aid⟩, [], sortByDist ⟨aid, H aid⟩ [⟨bid, H bid⟩, ⟨cid, H cid⟩]⟩,
          ⟨⟨bid, H bid⟩, [], sortByDist ⟨bid, H bid⟩ [⟨aid, H aid⟩, ⟨cid, H cid⟩]⟩,
          ⟨⟨cid, H cid⟩, [(s, JSVal.vStr v)],
            sortByDist ⟨cid, H cid⟩ [⟨aid, H aid⟩, ⟨bid, H bid⟩]⟩] := by
    rw [addToRoutingTable_fresh_eval H _ (fuel + 2) cid bid
      ⟨⟨cid, H cid⟩, [(s, JSVal.vStr v)], [⟨aid, H aid⟩]⟩
      ⟨⟨bid, H bid⟩, [], sortByDist ⟨bid, H bid⟩ [⟨aid, H aid⟩, ⟨cid, H cid⟩]⟩
      (by simp [findNode, hac, hbc]) (by simp [findNode, hab]) (by simp [hcb]) (by simp [hab])]
    rw [show setNode [⟨⟨aid, H aid⟩, [], sortByDist ⟨aid, H aid⟩ [⟨bid, H bid⟩, ⟨cid, H cid⟩]⟩,
        ⟨⟨bid, H bid⟩, [], sortByDist ⟨bid, H bid⟩ [⟨aid, H aid⟩, ⟨cid, H cid⟩]⟩,
        ⟨⟨cid, H cid⟩, [(s, JSVal.vStr v)], [⟨aid, H aid⟩]⟩]
        { (⟨⟨cid, H cid⟩, [(s, JSVal.vStr v)], [⟨aid, H aid⟩]⟩ : Node) with
            kBuckets := bucketsInsert ⟨cid, H cid⟩ ⟨bid, H bid⟩ [⟨aid, H aid⟩] }
        = [⟨⟨aid, H aid⟩, [], sortByDist ⟨aid, H aid⟩ [⟨bid, H bid⟩, ⟨cid, H cid⟩]⟩,
            ⟨⟨bid, H bid⟩, [], sortByDist ⟨bid, H bid⟩ [⟨aid, H aid⟩, ⟨cid, H cid⟩]⟩,
            ⟨⟨cid, H cid⟩, [(s, JSVal.vStr v)],
              sortByDist ⟨cid, H cid⟩ [⟨aid, H aid⟩, ⟨bid, H bid⟩]⟩]
          from by rw [hbiC2]; simp [setNode, hac, hbc]]
    have hclosest : Node.findClosestNodeFuel
        [⟨⟨aid, H aid⟩, [], sortByDist ⟨aid, H aid⟩ [⟨bid, H bid⟩, ⟨cid, H cid⟩]⟩,
          ⟨⟨bid, H bid⟩, [], sortByDist ⟨bid, H bid⟩ [⟨aid, H aid⟩, ⟨cid, H cid⟩]⟩,
          ⟨⟨cid, H cid⟩, [(s, JSVal.vStr v)],
            sortByDist ⟨cid, H cid⟩ [⟨aid, H aid⟩, ⟨bid, H bid⟩]⟩] (fuel + 2)
        ⟨⟨cid, H cid⟩, [(s, JSVal.vStr v)],
          sortByDist ⟨cid, H cid⟩ [⟨aid, H aid⟩, ⟨bid, H bid⟩]⟩ ⟨s, H s⟩
        = some ⟨⟨cid, H cid⟩, [(s, JSVal.vStr v)],
            sortByDist ⟨cid, H cid⟩ [⟨aid, H aid⟩, ⟨bid, H bid⟩]⟩ := by
      have h1 : fuel + 2 = (fuel + 1) + 1 := rfl
      rw [h1]
      apply findClosest_self
      intro x hx
      have hx2 := mem_sortByDist.mp hx
      simp only [List.mem_cons, List.not_mem_nil, or_false] at hx2
      rcases hx2 with rfl | rfl
      · exact hCA
      · exact hCB
    exact transferData_single_keep_eval H _ (fuel + 2) cid bid
      ⟨⟨cid, H cid⟩, [(s, JSVal.vStr v)], sortByDist ⟨cid, H cid⟩ [⟨aid, H aid⟩, ⟨bid, H bid⟩]⟩
      ⟨⟨bid, H bid⟩, [], sortByDist ⟨bid, H bid⟩ [⟨aid, H aid⟩, ⟨cid, H cid⟩]⟩
      ⟨⟨cid, H cid⟩, [(s, JSVal.vStr v)], sortByDist ⟨cid, H cid⟩ [⟨aid, H aid⟩, ⟨bid, H bid⟩]⟩
      s (JSVal.vStr v)
      (by simp [findNode, hac, hbc]) rfl hclosest (by simp [findNode, hab]) (by simp [hcb])
  -- step 5: c adds itself, a no-op
  have t5 : Node.addToRoutingTableFuel H
      [⟨⟨aid, H aid⟩, [], sortByDist ⟨aid, H aid⟩ [⟨bid, H bid⟩, ⟨cid, H cid⟩]⟩,
        ⟨⟨bid, H bid⟩, [], sortByDist ⟨bid, H bid⟩ [⟨aid, H aid⟩, ⟨cid, H cid⟩]⟩,
        ⟨⟨cid, H cid⟩, [(s, JSVal.vStr v)],
          sortByDist ⟨cid, H cid⟩ [⟨aid, H aid⟩, ⟨bid, H bid⟩]⟩] (fuel + 2) cid cid
      = some [⟨⟨aid, H aid⟩, [], sortByDist ⟨aid, H aid⟩ [⟨bid, H bid⟩, ⟨cid, H cid⟩]⟩,
          ⟨⟨bid, H bid⟩, [], sortByDist ⟨bid, H bid⟩ [⟨aid, H aid⟩, ⟨cid, H cid⟩]⟩,
          ⟨⟨cid, H cid⟩, [(s, JSVal.vStr v)],
            sortByDist ⟨cid, H cid⟩ [⟨aid, H aid⟩, ⟨bid, H bid⟩]⟩] :=
    addToRoutingTable_self_eval H _ (fuel + 2) cid
      ⟨⟨cid, H cid⟩, [(s, JSVal.vStr v)], sortByDist ⟨cid, H cid⟩ [⟨aid, H aid⟩, ⟨bid, H bid⟩]⟩
      (by simp [findNode, hac, hbc])
  have haddobj : addObject
      [⟨⟨aid, H aid⟩, [], [⟨bid, H bid⟩]⟩,
        ⟨⟨bid, H bid⟩, [(s, JSVal.vStr v)], [⟨aid, H aid⟩]⟩] ⟨⟨cid, H cid⟩, [], []⟩
      = [⟨⟨aid, H aid⟩, [], [⟨bid, H bid⟩]⟩,
          ⟨⟨bid, H bid⟩, [(s, JSVal.vStr v)], [⟨aid, H aid⟩]⟩,
          ⟨⟨cid, H cid⟩, [], []⟩] := by
    simp [addObject, findNode, hac, hbc]
  rw [KademliaDHT.joinNetworkFuel]
  rw [if_neg (by simp)]
  simp only [haddobj, Node.new, List.cons_append, List.nil_append,
    List.foldlM_cons, List.foldlM_nil, t1, t2, t3, t4, t5,
    Option.bind_eq_bind, Option.some_bind, Option.pure_def]
  rfl

lemma join_c_holderA_eval (H : String → Nat) (aid bid cid s v : String) (fuel : Nat)
    (hab : aid ≠ bid) (hac : aid ≠ cid) (hbc : bid ≠ cid)
    (hCA : Node.xorDistance ⟨cid, H cid⟩ ⟨s, H s⟩ < Node.xorDistance ⟨aid, H aid⟩ ⟨s, H s⟩)
    (hCB : Node.xorDistance ⟨cid, H cid⟩ ⟨s, H s⟩ < Node.xorDistance ⟨bid, H bid⟩ ⟨s, H s⟩) :
    KademliaDHT.joinNetworkFuel H (fuel + 2)
      ⟨[⟨⟨aid, H aid⟩, [(s, JSVal.vStr v)], [⟨bid, H bid⟩]⟩,
        ⟨⟨bid, H bid⟩, [], [⟨aid, H aid⟩]⟩], [aid, bid]⟩
      (Node.new H cid)
      = some ⟨[⟨⟨aid, H aid⟩, [], sortByDist ⟨aid, H aid⟩ [⟨bid, H bid⟩, ⟨cid, H cid⟩]⟩,
          ⟨⟨bid, H bid⟩, [], sortByDist ⟨bid, H bid⟩ [⟨aid, H aid⟩, ⟨cid, H cid⟩]⟩,
          ⟨⟨cid, H cid⟩, [(s, JSVal.vStr v)],
            sortByDist ⟨cid, H cid⟩ [⟨aid, H aid⟩, ⟨bid, H bid⟩]⟩],
          [aid, bid, cid]⟩ := by
  have hba := hab.symm
  have hca := hac.symm
  have hcb := hbc.symm
  have hbiA : bucketsInsert ⟨aid, H aid⟩ ⟨cid, H cid⟩ [⟨bid, H bid⟩]
      = sortByDist ⟨aid, H aid⟩ [⟨bid, H bid⟩, ⟨cid, H cid⟩] := by
    simp [bucketsInsert, length_sortByDist, Node.K]
  have hbiC1 : bucketsInsert ⟨cid, H cid⟩ ⟨aid, H aid⟩ ([] : List HashKey)
      = [⟨aid, H aid⟩] := by
    simp [bucketsInsert, length_sortByDist, Node.K, sortByDist]
  have hbiB : bucketsInsert ⟨bid, H bid⟩ ⟨cid, H cid⟩ [⟨aid, H aid⟩]
      = sortByDist ⟨bid, H bid⟩ [⟨aid, H aid⟩, ⟨cid, H cid⟩] := by
    simp [bucketsInsert, length_sortByDist, Node.K]
  have hbiC2 : bucketsInsert ⟨cid, H cid⟩ ⟨bid, H bid⟩ [⟨aid, H aid⟩]
      = sortByDist ⟨cid, H cid⟩ [⟨aid, H aid⟩, ⟨bid, H bid⟩] := by
    simp [bucketsInsert, length_sortByDist, Node.K]
  -- step 1: a learns c, then migrates its entry to the fresh c
  have t1 : Node.addToRoutingTableFuel H
      [⟨⟨aid, H aid⟩, [(s, JSVal.vStr v)], [⟨bid, H bid⟩]⟩,
        ⟨⟨bid, H bid⟩, [], [⟨aid, H aid⟩]⟩,
        ⟨⟨cid, H cid⟩, [], []⟩] (fuel + 2) aid cid
      = some [⟨⟨aid, H aid⟩, [], sortByDist ⟨aid, H aid⟩ [⟨bid, H bid⟩, ⟨cid, H cid⟩]⟩,
          ⟨⟨bid, H bid⟩, [], [⟨aid, H aid⟩]⟩,
          ⟨⟨cid, H cid⟩, [(s, JSVal.vStr v)], []⟩] := by
    rw [addToRoutingTable_fresh_eval H _ (fuel + 2) aid cid
      ⟨⟨aid, H aid⟩, [(s, JSVal.vStr v)], [⟨bid, H bid⟩]⟩ ⟨⟨cid, H cid⟩, [], []⟩
      (by simp [findNode]) (by simp [findNode, hac, hbc]) (by simp [hac]) (by simp [hbc])]
    rw [show setNode [⟨⟨aid, H aid⟩, [(s, JSVal.vStr v)], [⟨bid, H bid⟩]⟩,
        ⟨⟨bid, H bid⟩, [], [⟨aid, H aid⟩]⟩, ⟨⟨cid, H cid⟩, [], []⟩]
        { (⟨⟨aid, H aid⟩, [(s, JSVal.vStr v)], [⟨bid, H bid⟩]⟩ : Node) with
            kBuckets := bucketsInsert ⟨aid, H aid⟩ ⟨cid, H cid⟩ [⟨bid, H bid⟩] }
        = [⟨⟨aid, H aid⟩, [(s, JSVal.vStr v)],
              sortByDist ⟨aid, H aid⟩ [⟨bid, H bid⟩, ⟨cid, H cid⟩]⟩,
            ⟨⟨bid, H bid⟩, [], [⟨aid, H aid⟩]⟩,
            ⟨⟨cid, H cid⟩, [], []⟩] from by rw [hbiA]; simp [setNode, hba, hca]]
    have hclosest : Node.findClosestNodeFuel
        [⟨⟨aid, H aid⟩, [(s, JSVal.vStr v)],
            sortByDist ⟨aid, H aid⟩ [⟨bid, H bid⟩, ⟨cid, H cid⟩]⟩,
          ⟨⟨bid, H bid⟩, [], [⟨aid, H aid⟩]⟩,
          ⟨⟨cid, H cid⟩, [], []⟩] (fuel + 2)
        ⟨⟨aid, H aid⟩, [(s, JSVal.vStr v)],
          sortByDist ⟨aid, H aid⟩ [⟨bid, H bid⟩, ⟨cid, H cid⟩]⟩ ⟨s, H s⟩
        = some ⟨⟨cid, H cid⟩, [], []⟩ := by
      rw [findClosest_hop _ (fuel + 1) _ ⟨⟨cid, H cid⟩, [], []⟩ _ ⟨cid, H cid⟩
        (mem_sortByDist.mpr (by simp))
        (by
          intro x hx
          rcases hx with rfl | hx
          · exact Or.inr hCA
          · have hx2 := mem_sortByDist.mp hx
            simp only [List.mem_cons, List.not_mem_nil, or_false] at hx2
            rcases hx2 with rfl | rfl
            · exact Or.inr hCB
            · exact Or.inl rfl)
        (by simp [hac])
        (by simp [findNode, hac, hbc])]
      apply findClosest_self
      intro x hx
      simp at hx
    rw [transferData_single_migrate_eval H _ (fuel + 2) aid cid
      ⟨⟨aid, H aid⟩, [(s, JSVal.vStr v)],
        sortByDist ⟨aid, H aid⟩ [⟨bid, H bid⟩, ⟨cid, H cid⟩]⟩
      ⟨⟨cid, H cid⟩, [], []⟩
      ⟨⟨aid, H aid⟩, [(s, JSVal.vStr v)],
        sortByDist ⟨aid, H aid⟩ [⟨bid, H bid⟩, ⟨cid, H cid⟩]⟩
      s (JSVal.vStr v)
      (by simp [findNode]) rfl hclosest (by simp [findNode, hac, hbc])
      (by simp [findNode, setNode, Node.storeData, mapSetJS, hab, hac, hbc, hba, hca, hcb])]
    congr 1
    simp [setNode, Node.storeData, mapSetJS, mapDeleteJS, hab, hac, hbc, hba, hca, hcb]
  -- step 2: c learns a; c keeps its migrated entry
  have t2 : Node.addToRoutingTableFuel H
      [⟨⟨aid, H aid⟩, [], sortByDist ⟨aid, H aid⟩ [⟨bid, H bid⟩, ⟨cid, H cid⟩]⟩,
        ⟨⟨bid, H bid⟩, [], [⟨aid, H aid⟩]⟩,
        ⟨⟨cid, H cid⟩, [(s, JSVal.vStr v)], []⟩] (fuel + 2) cid aid
      = some [⟨⟨aid, H aid⟩, [], sortByDist ⟨aid, H aid⟩ [⟨bid, H bid⟩, ⟨cid, H cid⟩]⟩,
          ⟨⟨bid, H bid⟩, [], [⟨aid, H aid⟩]⟩,
          ⟨⟨cid, H cid⟩, [(s, JSVal.vStr v)], [⟨aid, H aid⟩]⟩] := by
    rw [addToRoutingTable_fresh_eval H _ (fuel + 2) cid aid
      ⟨⟨cid, H cid⟩, [(s, JSVal.vStr v)], []⟩
      ⟨⟨aid, H aid⟩, [], sortByDist ⟨aid, H aid⟩ [⟨bid, H bid⟩, ⟨cid, H cid⟩]⟩
      (by simp [findNode, hac, hbc]) (by simp [findNode]) (by simp [hca]) (by simp)]
    rw [show setNode [⟨⟨aid, H aid⟩, [], sortByDist ⟨aid, H aid⟩ [⟨bid, H bid⟩, ⟨cid, H cid⟩]⟩,
        ⟨⟨bid, H bid⟩, [], [⟨aid, H aid⟩]⟩, ⟨⟨cid, H cid⟩, [(s, JSVal.vStr v)], []⟩]
        { (⟨⟨cid, H cid⟩, [(s, JSVal.vStr v)], []⟩ : Node) with
            kBuckets := bucketsInsert ⟨cid, H cid⟩ ⟨aid, H aid⟩ ([] : List HashKey) }
        = [⟨⟨aid, H aid⟩, [], sortByDist ⟨aid, H aid⟩ [⟨bid, H bid⟩, ⟨cid, H cid⟩]⟩,
            ⟨⟨bid, H bid⟩, [], [⟨aid, H aid⟩]⟩,
            ⟨⟨cid, H cid⟩, [(s, JSVal.vStr v)], [⟨aid, H aid⟩]⟩]
          from by rw [hbiC1]; simp [setNode, hac, hbc]]
    have hclosest : Node.findClosestNodeFuel
        [⟨⟨aid, H aid⟩, [], sortByDist ⟨aid, H aid⟩ [⟨bid, H bid⟩, ⟨cid, H cid⟩]⟩,
          ⟨⟨bid, H bid⟩, [], [⟨aid, H aid⟩]⟩,
          ⟨⟨cid, H cid⟩, [(s, JSVal.vStr v)], [⟨aid, H aid⟩]⟩] (fuel + 2)
        ⟨⟨cid, H cid⟩, [(s, JSVal.vStr v)], [⟨aid, H aid⟩]⟩ ⟨s, H s⟩
        = some ⟨⟨cid, H cid⟩, [(s, JSVal.vStr v)], [⟨aid, H aid⟩]⟩ := by
      have h1 : fuel + 2 = (fuel + 1) + 1 := rfl
      rw [h1]
      apply findClosest_self
      intro x hx
      simp only [List.mem_cons, List.not_mem_nil, or_false] at hx
      subst hx
      exact hCA
    exact transferData_single_keep_eval H _ (fuel + 2) cid aid
      ⟨⟨cid, H cid⟩, [(s, JSVal.vStr v)], [⟨aid, H aid⟩]⟩
      ⟨⟨aid, H aid⟩, [], sortByDist ⟨aid, H aid⟩ [⟨bid, H bid⟩, ⟨cid, H cid⟩]⟩
      ⟨⟨cid, H cid⟩, [(s, JSVal.vStr v)], [⟨aid, H aid⟩]⟩
      s (JSVal.vStr v)
      (by simp [findNode, hac, hbc]) rfl hclosest (by simp [findNode]) (by simp [hca])
  -- step 3: b learns c; b holds no data
  have t3 : Node.addToRoutingTableFuel H
      [⟨⟨aid, H aid⟩, [], sortByDist ⟨aid, H aid⟩ [⟨bid, H bid⟩, ⟨cid, H cid⟩]⟩,
        ⟨⟨bid, H bid⟩, [], [⟨aid, H aid⟩]⟩,
        ⟨⟨cid, H cid⟩, [(s, JSVal.vStr v)], [⟨aid, H aid⟩]⟩] (fuel + 2) bid cid
      = some [⟨⟨aid, H aid⟩, [], sortByDist ⟨aid, H aid⟩ [⟨bid, H bid⟩, ⟨cid, H cid⟩]⟩,
          ⟨⟨bid, H bid⟩, [], sortByDist ⟨bid, H bid⟩ [⟨aid, H aid⟩, ⟨cid, H cid⟩]⟩,
          ⟨⟨cid, H cid⟩, [(s, JSVal.vStr v)], [⟨aid, H aid⟩]⟩] := by
    rw [addToRoutingTable_fresh_eval H _ (fuel + 2) bid cid
      ⟨⟨bid, H bid⟩, [], [⟨aid, H aid⟩]⟩
      ⟨⟨cid, H cid⟩, [(s, JSVal.vStr v)], [⟨aid, H aid⟩]⟩
      (by simp [findNode, hab]) (by simp [findNode, hac, hbc]) (by simp [hbc]) (by simp [hac])]
    rw [show setNode [⟨⟨aid, H aid⟩, [], sortByDist ⟨aid, H aid⟩ [⟨bid, H bid⟩, ⟨cid, H cid⟩]⟩,
        ⟨⟨bid, H bid⟩, [], [⟨aid, H aid⟩]⟩,
        ⟨⟨cid, H cid⟩, [(s, JSVal.vStr v)], [⟨aid, H aid⟩]⟩]
        { (⟨⟨bid, H bid⟩, [], [⟨aid, H aid⟩]⟩ : Node) with
            kBuckets := bucketsInsert ⟨bid, H bid⟩ ⟨cid, H cid⟩ [⟨aid, H aid⟩] }
        = [⟨⟨aid, H aid⟩, [], sortByDist ⟨aid, H aid⟩ [⟨bid, H bid⟩, ⟨cid, H cid⟩]⟩,
            ⟨⟨bid, H bid⟩, [], sortByDist ⟨bid, H bid⟩ [⟨aid, H aid⟩, ⟨cid, H cid⟩]⟩,
            ⟨⟨cid, H cid⟩, [(s, JSVal.vStr v)], [⟨aid, H aid⟩]⟩]
          from by rw [hbiB]; simp [setNode, hab, hcb]]
    exact transferData_nil_eval H _ (fuel + 2) bid cid
      ⟨⟨bid, H bid⟩, [], sortByDist ⟨bid, H bid⟩ [⟨aid, H aid⟩, ⟨cid, H cid⟩]⟩
      (by simp [findNode, hab]) rfl
  -- step 4: c learns b; c keeps the entry
  have t4 : Node.addToRoutingTableFuel H
      [⟨⟨aid, H aid⟩, [], sortByDist ⟨aid, H aid⟩ [⟨bid, H bid⟩, ⟨cid, H cid⟩]⟩,
        ⟨⟨bid, H bid⟩, [], sortByDist ⟨bid, H bid⟩ [⟨aid, H aid⟩, ⟨cid, H cid⟩]⟩,
        ⟨⟨cid, H cid⟩, [(s, JSVal.vStr v)], [⟨aid, H aid⟩]⟩] (fuel + 2) cid bid
      = some [⟨⟨aid, H aid⟩, [], sortByDist ⟨aid, H aid⟩ [⟨bid, H bid⟩, ⟨cid, H cid⟩]⟩,
          ⟨⟨bid, H bid⟩, [], sortByDist ⟨bid, H bid⟩ [⟨aid, H aid⟩, ⟨cid, H cid⟩]⟩,
          ⟨⟨cid, H cid⟩, [(s, JSVal.vStr v)],
            sortByDist ⟨cid, H cid⟩ [⟨aid, H aid⟩, ⟨bid, H bid⟩]⟩] := by
    rw [addToRoutingTable_fresh_eval H _ (fuel + 2) cid bid
      ⟨⟨cid, H cid⟩, [(s, JSVal.vStr v)], [⟨aid, H aid⟩]⟩
      ⟨⟨bid, H bid⟩, [], sortByDist ⟨bid, H bid⟩ [⟨aid, H aid⟩, ⟨cid, H cid⟩]⟩
      (by simp [findNode, hac, hbc]) (by simp [findNode, hab]) (by simp [hcb]) (by simp [hab])]
    rw [show setNode [⟨⟨aid, H aid⟩, [], sortByDist ⟨aid, H aid⟩ [⟨bid, H bid⟩, ⟨cid, H cid⟩]⟩,
        ⟨⟨bid, H bid⟩, [], sortByDist ⟨bid, H bid⟩ [⟨aid, H aid⟩, ⟨cid, H cid⟩]⟩,
        ⟨⟨cid, H cid⟩, [(s, JSVal.vStr v)], [⟨aid, H aid⟩]⟩]
        { (⟨⟨cid, H cid⟩, [(s, JSVal.vStr v)], [⟨aid, H aid⟩]⟩ : Node) with
            kBuckets := bucketsInsert ⟨cid, H cid⟩ ⟨bid, H bid⟩ [⟨aid, H aid⟩] }
        = [⟨⟨aid, H aid⟩, [], sortByDist ⟨aid, H aid⟩ [⟨bid, H bid⟩, ⟨cid, H cid⟩]⟩,
            ⟨⟨bid, H bid⟩, [], sortByDist ⟨bid, H bid⟩ [⟨aid, H aid⟩, ⟨cid, H cid⟩]⟩,
            ⟨⟨cid, H cid⟩, [(s, JSVal.vStr v)],
              sortByDist ⟨cid, H cid⟩ [⟨aid, H aid⟩, ⟨bid, H bid⟩]⟩]
          from by rw [hbiC2]; simp [setNode, hac, hbc]]
    have hclosest : Node.findClosestNodeFuel
        [⟨⟨aid, H aid⟩, [], sortByDist ⟨aid, H aid⟩ [⟨bid, H bid⟩, ⟨cid, H cid⟩]⟩,
          ⟨⟨bid, H bid⟩, [], sortByDist ⟨bid, H bid⟩ [⟨aid, H aid⟩, ⟨cid, H cid⟩]⟩,
          ⟨⟨cid, H cid⟩, [(s, JSVal.vStr v)],
            sortByDist ⟨cid, H cid⟩ [⟨aid, H aid⟩, ⟨bid, H bid⟩]⟩] (fuel + 2)
        ⟨⟨cid, H cid⟩, [(s, JSVal.vStr v)],
          sortByDist ⟨cid, H cid⟩ [⟨aid, H aid⟩, ⟨bid, H bid⟩]⟩ ⟨s, H s⟩
        = some ⟨⟨cid, H cid⟩, [(s, JSVal.vStr v)],
            sortByDist ⟨cid, H cid⟩ [⟨aid, H aid⟩, ⟨bid, H bid⟩]⟩ := by
      have h1 : fuel + 2 = (fuel + 1) + 1 := rfl
      rw [h1]
      apply findClosest_self
      intro x hx
      have hx2 := mem_sortByDist.mp hx
      simp only [List.mem_cons, List.not_mem_nil, or_false] at hx2
      rcases hx2 with rfl | rfl
      · exact hCA
      · exact hCB
    exact transferData_single_keep_eval H _ (fuel + 2) cid bid
      ⟨⟨cid, H cid⟩, [(s, JSVal.vStr v)], sortByDist ⟨cid, H cid⟩ [⟨aid, H aid⟩, ⟨bid, H bid⟩]⟩
      ⟨⟨bid, H bid⟩, [], sortByDist ⟨bid, H bid⟩ [⟨aid, H aid⟩, ⟨cid, H cid⟩]⟩
      ⟨⟨cid, H cid⟩, [(s, JSVal.vStr v)], sortByDist ⟨cid, H cid⟩ [⟨aid, H aid⟩, ⟨bid, H bid⟩]⟩
      s (JSVal.vStr v)
      (by simp [findNode, hac, hbc]) rfl hclosest (by simp [findNode, hab]) (by simp [hcb])
  have t5 : Node.addToRoutingTableFuel H
      [⟨⟨aid, H aid⟩, [], sortByDist ⟨aid, H aid⟩ [⟨bid, H bid⟩, ⟨cid, H cid⟩]⟩,
        ⟨⟨bid, H bid⟩, [], sortByDist ⟨bid, H bid⟩ [⟨aid, H aid⟩, ⟨cid, H cid⟩]⟩,
        ⟨⟨cid, H cid⟩, [(s, JSVal.vStr v)],
          sortByDist ⟨cid, H cid⟩ [⟨aid, H aid⟩, ⟨bid, H bid⟩]⟩] (fuel + 2) cid cid
      = some [⟨⟨aid, H aid⟩, [], sortByDist ⟨aid, H aid⟩ [⟨bid, H bid⟩, ⟨cid, H cid⟩]⟩,
          ⟨⟨bid, H bid⟩, [], sortByDist ⟨bid, H bid⟩ [⟨aid, H aid⟩, ⟨cid, H cid⟩]⟩,
          ⟨⟨cid, H cid⟩, [(s, JSVal.vStr v)],
            sortByDist ⟨cid, H cid⟩ [⟨aid, H aid⟩, ⟨bid, H bid⟩]⟩] :=
    addToRoutingTable_self_eval H _ (fuel + 2) cid
      ⟨⟨cid, H cid⟩, [(s, JSVal.vStr v)], sortByDist ⟨cid, H cid⟩ [⟨aid, H aid⟩, ⟨bid, H bid⟩]⟩
      (by simp [findNode, hac, hbc])
  have haddobj : addObject
      [⟨⟨aid, H aid⟩, [(s, JSVal.vStr v)], [⟨bid, H bid⟩]⟩,
        ⟨⟨bid, H bid⟩, [], [⟨aid, H aid⟩]⟩] ⟨⟨cid, H cid⟩, [], []⟩
      = [⟨⟨aid, H aid⟩, [(s, JSVal.vStr v)], [⟨bid, H bid⟩]⟩,
          ⟨⟨bid, H bid⟩, [], [⟨aid, H aid⟩]⟩,
          ⟨⟨cid, H cid⟩, [], []⟩] := by
    simp [addObject, findNode, hac, hbc]
  rw [KademliaDHT.joinNetworkFuel]
  rw [if_neg (by simp)]
  simp only [haddobj, Node.new, List.cons_append, List.nil_append,
    List.foldlM_cons, List.foldlM_nil, t1, t2, t3, t4, t5,
    Option.bind_eq_bind, Option.some_bind, Option.pure_def]
  rfl

/-- Store in the two-node network when A is strictly closer to the key:
either entry point places the value at A. -/
lemma store_closerA_eval (H : String → Nat) (aid bid s v : String) (i fuel : Nat)
    (hab : aid ≠ bid)
    (hd : Node.xorDistance ⟨aid, H aid⟩ ⟨s, H s⟩ < Node.xorDistance ⟨bid, H bid⟩ ⟨s, H s⟩)
    (hi : i < 2) :
    KademliaDHT.storeDataFuel H
      ⟨[⟨⟨aid, H aid⟩, [], [⟨bid, H bid⟩]⟩, ⟨⟨bid, H bid⟩, [], [⟨aid, H aid⟩]⟩], [aid, bid]⟩
      i (fuel + 2) (KeyArg.str s) v
      = Except.ok ⟨[⟨⟨aid, H aid⟩, [(s, JSVal.vStr v)], [⟨bid, H bid⟩]⟩,
          ⟨⟨bid, H bid⟩, [], [⟨aid, H aid⟩]⟩], [aid, bid]⟩ := by
  have hba := hab.symm
  have hfcA : Node.findClosestNodeFuel
      [⟨⟨aid, H aid⟩, [], [⟨bid, H bid⟩]⟩, ⟨⟨bid, H bid⟩, [], [⟨aid, H aid⟩]⟩] (fuel + 2)
      ⟨⟨aid, H aid⟩, [], [⟨bid, H bid⟩]⟩ ⟨s, H s⟩
      = some ⟨⟨aid, H aid⟩, [], [⟨bid, H bid⟩]⟩ := by
    apply findClosest_self
    intro x hx
    simp only [List.mem_cons, List.not_mem_nil, or_false] at hx
    subst hx
    exact hd
  have hfcB : Node.findClosestNodeFuel
      [⟨⟨aid, H aid⟩, [], [⟨bid, H bid⟩]⟩, ⟨⟨bid, H bid⟩, [], [⟨aid, H aid⟩]⟩] (fuel + 2)
      ⟨⟨bid, H bid⟩, [], [⟨aid, H aid⟩]⟩ ⟨s, H s⟩
      = some ⟨⟨aid, H aid⟩, [], [⟨bid, H bid⟩]⟩ := by
    rw [findClosest_hop _ (fuel + 1) _ ⟨⟨aid, H aid⟩, [], [⟨bid, H bid⟩]⟩ _ ⟨aid, H aid⟩
      (by simp)
      (by
        intro x hx
        rcases hx with rfl | hx
        · exact Or.inr hd
        · simp only [List.mem_cons, List.not_mem_nil, or_false] at hx
          subst hx
          exact Or.inl rfl)
      (by simp [hba])
      (by simp [findNode])]
    apply findClosest_self
    intro x hx
    simp only [List.mem_cons, List.not_mem_nil, or_false] at hx
    subst hx
    exact hd
  interval_cases i
  · simp [KademliaDHT.storeDataFuel, KademliaDHT.getRandomNode, findNode, hab, hba,
      HashKey.toKey, hfcA, Node.storeData, mapSetJS, setNode]
  · simp [KademliaDHT.storeDataFuel, KademliaDHT.getRandomNode, findNode, hab, hba,
      HashKey.toKey, hfcB, Node.storeData, mapSetJS, setNode]

/-- Store in the two-node network when B is strictly closer to the key:
either entry point places the value at B. -/
lemma store_closerB_eval (H : String → Nat) (aid bid s v : String) (i fuel : Nat)
    (hab : aid ≠ bid)
    (hd : Node.xorDistance ⟨bid, H bid⟩ ⟨s, H s⟩ < Node.xorDistance ⟨aid, H aid⟩ ⟨s, H s⟩)
    (hi : i < 2) :
    KademliaDHT.storeDataFuel H
      ⟨[⟨⟨aid, H aid⟩, [], [⟨bid, H bid⟩]⟩, ⟨⟨bid, H bid⟩, [], [⟨aid, H aid⟩]⟩], [aid, bid]⟩
      i (fuel + 2) (KeyArg.str s) v
      = Except.ok ⟨[⟨⟨aid, H aid⟩, [], [⟨bid, H bid⟩]⟩,
          ⟨⟨bid, H bid⟩, [(s, JSVal.vStr v)], [⟨aid, H aid⟩]⟩], [aid, bid]⟩ := by
  have hba := hab.symm
  have hfcA : Node.findClosestNodeFuel
      [⟨⟨aid, H aid⟩, [], [⟨bid, H bid⟩]⟩, ⟨⟨bid, H bid⟩, [], [⟨aid, H aid⟩]⟩] (fuel + 2)
      ⟨⟨aid, H aid⟩, [], [⟨bid, H bid⟩]⟩ ⟨s, H s⟩
      = some ⟨⟨bid, H bid⟩, [], [⟨aid, H aid⟩]⟩ := by
    rw [findClosest_hop _ (fuel + 1) _ ⟨⟨bid, H bid⟩, [], [⟨aid, H aid⟩]⟩ _ ⟨bid, H bid⟩
      (by simp)
      (by
        intro x hx
        rcases hx with rfl | hx
        · exact Or.inr hd
        · simp only [List.mem_cons, List.not_mem_nil, or_false] at hx
          subst hx
          exact Or.inl rfl)
      (by simp [hab])
      (by simp [findNode, hab])]
    apply findClosest_self
    intro x hx
    simp only [List.mem_cons, List.not_mem_nil, or_false] at hx
    subst hx
    exact hd
  have hfcB : Node.findClosestNodeFuel
      [⟨⟨aid, H aid⟩, [], [⟨bid, H bid⟩]⟩, ⟨⟨bid, H bid⟩, [], [⟨aid, H aid⟩]⟩] (fuel + 2)
      ⟨⟨bid, H bid⟩, [], [⟨aid, H aid⟩]⟩ ⟨s, H s⟩
      = some ⟨⟨bid, H bid⟩, [], [⟨aid, H aid⟩]⟩ := by
    apply findClosest_self
    intro x hx
    simp only [List.mem_cons, List.not_mem_nil, or_false] at hx
    subst hx
    exact hd
  interval_cases i
  · simp [KademliaDHT.storeDataFuel, KademliaDHT.getRandomNode, findNode, hab, hba,
      HashKey.toKey, hfcA, Node.storeData, mapSetJS, setNode]
  · simp [KademliaDHT.storeDataFuel, KademliaDHT.getRandomNode, findNode, hab, hba,
      HashKey.toKey, hfcB, Node.storeData, mapSetJS, setNode]

/-- In the three-node network left behind by the join of `c`, retrieval of the
migrated key succeeds from every entry point. -/
lemma retrieve_after_migration_eval (H : String → Nat) (aid bid cid s v : String)
    (j fuel : Nat) (hab : aid ≠ bid) (hac : aid ≠ cid) (hbc : bid ≠ cid)
    (hCA : Node.xorDistance ⟨cid, H cid⟩ ⟨s, H s⟩ < Node.xorDistance ⟨aid, H aid⟩ ⟨s, H s⟩)
    (hCB : Node.xorDistance ⟨cid, H cid⟩ ⟨s, H s⟩ < Node.xorDistance ⟨bid, H bid⟩ ⟨s, H s⟩)
    (hj : j < 3) :
    KademliaDHT.retrieveDataFuel H
      ⟨[⟨⟨aid, H aid⟩, [], sortByDist ⟨aid, H aid⟩ [⟨bid, H bid⟩, ⟨cid, H cid⟩]⟩,
        ⟨⟨bid, H bid⟩, [], sortByDist ⟨bid, H bid⟩ [⟨aid, H aid⟩, ⟨cid, H cid⟩]⟩,
        ⟨⟨cid, H cid⟩, [(s, JSVal.vStr v)],
          sortByDist ⟨cid, H cid⟩ [⟨aid, H aid⟩, ⟨bid, H bid⟩]⟩],
        [aid, bid, cid]⟩ j (fuel + 2) (KeyArg.str s)
      = Except.ok (JSVal.vStr v) := by
  have hba := hab.symm
  have hca := hac.symm
  have hcb := hbc.symm
  have hfcC : ∀ f : Nat, Node.findClosestNodeFuel
      [⟨⟨aid, H aid⟩, [], sortByDist ⟨aid, H aid⟩ [⟨bid, H bid⟩, ⟨cid, H cid⟩]⟩,
        ⟨⟨bid, H bid⟩, [], sortByDist ⟨bid, H bid⟩ [⟨aid, H aid⟩, ⟨cid, H cid⟩]⟩,
        ⟨⟨cid, H cid⟩, [(s, JSVal.vStr v)],
          sortByDist ⟨cid, H cid⟩ [⟨aid, H aid⟩, ⟨bid, H bid⟩]⟩] (f + 1)
      ⟨⟨cid, H cid⟩, [(s, JSVal.vStr v)],
        sortByDist ⟨cid, H cid⟩ [⟨aid, H aid⟩, ⟨bid, H bid⟩]⟩ ⟨s, H s⟩
      = some ⟨⟨cid, H cid⟩, [(s, JSVal.vStr v)],
          sortByDist ⟨cid, H cid⟩ [⟨aid, H aid⟩, ⟨bid, H bid⟩]⟩ := by
    intro f
    apply findClosest_self
    intro x hx
    have hx2 := mem_sortByDist.mp hx
    simp only [List.mem_cons, List.not_mem_nil, or_false] at hx2
    rcases hx2 with rfl | rfl
    · exact hCA
    · exact hCB
  interval_cases j
  · have hfc : Node.findClosestNodeFuel
        [⟨⟨aid, H aid⟩, [], sortByDist ⟨aid, H aid⟩ [⟨bid, H bid⟩, ⟨cid, H cid⟩]⟩,
          ⟨⟨bid, H bid⟩, [], sortByDist ⟨bid, H bid⟩ [⟨aid, H aid⟩, ⟨cid, H cid⟩]⟩,
          ⟨⟨cid, H cid⟩, [(s, JSVal.vStr v)],
            sortByDist ⟨cid, H cid⟩ [⟨aid, H aid⟩, ⟨bid, H bid⟩]⟩] (fuel + 2)
        ⟨⟨aid, H aid⟩, [], sortByDist ⟨aid, H aid⟩ [⟨bid, H bid⟩, ⟨cid, H cid⟩]⟩ ⟨s, H s⟩
        = some ⟨⟨cid, H cid⟩, [(s, JSVal.vStr v)],
            sortByDist ⟨cid, H cid⟩ [⟨aid, H aid⟩, ⟨bid, H bid⟩]⟩ := by
      rw [findClosest_hop _ (fuel + 1) _
        ⟨⟨cid, H cid⟩, [(s, JSVal.vStr v)],
          sortByDist ⟨cid, H cid⟩ [⟨aid, H aid⟩, ⟨bid, H bid⟩]⟩ _ ⟨cid, H cid⟩
        (mem_sortByDist.mpr (by simp))
        (by
          intro x hx
          rcases hx with rfl | hx
          · exact Or.inr hCA
          · have hx2 := mem_sortByDist.mp hx
            simp only [List.mem_cons, List.not_mem_nil, or_false] at hx2
            rcases hx2 with rfl | rfl
            · exact Or.inr hCB
            · exact Or.inl rfl)
        (by simp [hac])
        (by simp [findNode, hac, hbc])]
      exact hfcC fuel
    simp [KademliaDHT.retrieveDataFuel, KademliaDHT.getRandomNode, findNode, hab, hac, hbc,
      hba, hca, hcb, HashKey.toKey, hfc, Node.getData, mapGetJS, nullish]
  · have hfc : Node.findClosestNodeFuel
        [⟨⟨aid, H aid⟩, [], sortByDist ⟨aid, H aid⟩ [⟨bid, H bid⟩, ⟨cid, H cid⟩]⟩,
          ⟨⟨bid, H bid⟩, [], sortByDist ⟨bid, H bid⟩ [⟨aid, H aid⟩, ⟨cid, H cid⟩]⟩,
          ⟨⟨cid, H cid⟩, [(s, JSVal.vStr v)],
            sortByDist ⟨cid, H cid⟩ [⟨aid, H aid⟩, ⟨bid, H bid⟩]⟩] (fuel + 2)
        ⟨⟨bid, H bid⟩, [], sortByDist ⟨bid, H bid⟩ [⟨aid, H aid⟩, ⟨cid, H cid⟩]⟩ ⟨s, H s⟩
        = some ⟨⟨cid, H cid⟩, [(s, JSVal.vStr v)],
            sortByDist ⟨cid, H cid⟩ [⟨aid, H aid⟩, ⟨bid, H bid⟩]⟩ := by
      rw [findClosest_hop _ (fuel + 1) _
        ⟨⟨cid, H cid⟩, [(s, JSVal.vStr v)],
          sortByDist ⟨cid, H cid⟩ [⟨aid, H aid⟩, ⟨bid, H bid⟩]⟩ _ ⟨cid, H cid⟩
        (mem_sortByDist.mpr (by simp))
        (by
          intro x hx
          rcases hx with rfl | hx
          · exact Or.inr hCB
          · have hx2 := mem_sortByDist.mp hx
            simp only [List.mem_cons, List.not_mem_nil, or_false] at hx2
            rcases hx2 with rfl | rfl
            · exact Or.inr hCA
            · exact Or.inl rfl)
        (by simp [hbc])
        (by simp [findNode, hac, hbc])]
      exact hfcC fuel
    simp [KademliaDHT.retrieveDataFuel, KademliaDHT.getRandomNode, findNode, hab, hac, hbc,
      hba, hca, hcb, HashKey.toKey, hfc, Node.getData, mapGetJS, nullish]
  · have hfc := hfcC (fuel + 1)
    simp [KademliaDHT.retrieveDataFuel, KademliaDHT.getRandomNode, findNode, hab, hac, hbc,
      hba, hca, hcb, HashKey.toKey, hfc, Node.getData, mapGetJS, nullish]

/-- Claim C3: starting from the network `{A, B}` built by the joins, storing a
key whose placement lands on whichever of A/B is strictly closer, and then
joining a node C strictly closer to the key than both: after the join C's
local store holds the value, no other node's store does (the prior holder's
entry was deleted by `transferData`), and retrieval from every entry point
still returns the value. -/
theorem migration_on_join (H : String → Nat) (aid bid cid s v : String)
    (i fuel : Nat)
    (hab : aid ≠ bid) (hac : aid ≠ cid) (hbc : bid ≠ cid)
    (hCA : Node.xorDistance ⟨cid, H cid⟩ ⟨s, H s⟩ < Node.xorDistance ⟨aid, H aid⟩ ⟨s, H s⟩)
    (hCB : Node.xorDistance ⟨cid, H cid⟩ ⟨s, H s⟩ < Node.xorDistance ⟨bid, H bid⟩ ⟨s, H s⟩)
    (hAB : Node.xorDistance ⟨aid, H aid⟩ ⟨s, H s⟩ ≠ Node.xorDistance ⟨bid, H bid⟩ ⟨s, H s⟩)
    (hi : i < 2) :
    ∃ net2 dht2 dht3 : KademliaDHT,
      (KademliaDHT.joinNetworkFuel H fuel emptyDHT (Node.new H aid)).bind
        (fun d => KademliaDHT.joinNetworkFuel H fuel d (Node.new H bid)) = some net2
      ∧ KademliaDHT.storeDataFuel H net2 i (fuel + 2) (KeyArg.str s) v = Except.ok dht2
      ∧ KademliaDHT.joinNetworkFuel H (fuel + 2) dht2 (Node.new H cid) = some dht3
      ∧ (dataOf dht3 cid).find? (fun e => e.1 == s) = some (s, JSVal.vStr v)
      ∧ (∀ n ∈ dht3.heap, n.key.id ≠ cid → n.data.find? (fun e => e.1 == s) = none)
      ∧ ∀ j, j < 3 → KademliaDHT.retrieveDataFuel H dht3 j (fuel + 2) (KeyArg.str s)
          = Except.ok (JSVal.vStr v) := by
  have hba := hab.symm
  have hca := hac.symm
  have hcb := hbc.symm
  have hjoin12 : (KademliaDHT.joinNetworkFuel H fuel emptyDHT (Node.new H aid)).bind
      (fun d => KademliaDHT.joinNetworkFuel H fuel d (Node.new H bid))
      = some ⟨[⟨⟨aid, H aid⟩, [], [⟨bid, H bid⟩]⟩,
          ⟨⟨bid, H bid⟩, [], [⟨aid, H aid⟩]⟩], [aid, bid]⟩ := by
    rw [join_first]
    show KademliaDHT.joinNetworkFuel H fuel ⟨[Node.new H aid], [aid]⟩ (Node.new H bid) = _
    exact join_second H fuel aid bid hab
  have hdataC : ((dataOf ⟨[⟨⟨aid, H aid⟩, [],
        sortByDist ⟨aid, H aid⟩ [⟨bid, H bid⟩, ⟨cid, H cid⟩]⟩,
      ⟨⟨bid, H bid⟩, [], sortByDist ⟨bid, H bid⟩ [⟨aid, H aid⟩, ⟨cid, H cid⟩]⟩,
      ⟨⟨cid, H cid⟩, [(s, JSVal.vStr v)],
        sortByDist ⟨cid, H cid⟩ [⟨aid, H aid⟩, ⟨bid, H bid⟩]⟩], [aid, bid, cid]⟩ cid).find?
        (fun e => e.1 == s)) = some (s, JSVal.vStr v) := by
    simp [dataOf, findNode, hac, hbc]
  have hnone : ∀ n ∈ ([⟨⟨aid, H aid⟩, [],
        sortByDist ⟨aid, H aid⟩ [⟨bid, H bid⟩, ⟨cid, H cid⟩]⟩,
      ⟨⟨bid, H bid⟩, [], sortByDist ⟨bid, H bid⟩ [⟨aid, H aid⟩, ⟨cid, H cid⟩]⟩,
      ⟨⟨cid, H cid⟩, [(s, JSVal.vStr v)],
        sortByDist ⟨cid, H cid⟩ [⟨aid, H aid⟩, ⟨bid, H bid⟩]⟩] : Heap),
      n.key.id ≠ cid → n.data.find? (fun e => e.1 == s) = none := by
    intro n hn hne
    simp only [List.mem_cons, List.not_mem_nil, or_false] at hn
    rcases hn with rfl | rfl | rfl
    · rfl
    · rfl
    · exact absurd rfl hne
  have hretr := fun j hj => retrieve_after_migration_eval H aid bid cid s v j fuel
    hab hac hbc hCA hCB hj
  rcases hAB.lt_or_lt with hlt | hlt
  · -- A is the closer of the two: the value lands on A, then migrates to C
    refine ⟨⟨[⟨⟨aid, H aid⟩, [], [⟨bid, H bid⟩]⟩,
        ⟨⟨bid, H bid⟩, [], [⟨aid, H aid⟩]⟩], [aid, bid]⟩,
      ⟨[⟨⟨aid, H aid⟩, [(s, JSVal.vStr v)], [⟨bid, H bid⟩]⟩,
        ⟨⟨bid, H bid⟩, [], [⟨aid, H aid⟩]⟩], [aid, bid]⟩,
      ⟨[⟨⟨aid, H aid⟩, [], sortByDist ⟨aid, H aid⟩ [⟨bid, H bid⟩, ⟨cid, H cid⟩]⟩,
        ⟨⟨bid, H bid⟩, [], sortByDist ⟨bid, H bid⟩ [⟨aid, H aid⟩, ⟨cid, H cid⟩]⟩,
        ⟨⟨cid, H cid⟩, [(s, JSVal.vStr v)],
          sortByDist ⟨cid, H cid⟩ [⟨aid, H aid⟩, ⟨bid, H bid⟩]⟩], [aid, bid, cid]⟩,
      hjoin12, store_closerA_eval H aid bid s v i fuel hab hlt hi,
      join_c_holderA_eval H aid bid cid s v fuel hab hac hbc hCA hCB,
      hdataC, hnone, hretr⟩
  · -- B is the closer of the two: the value lands on B, then migrates to C
    refine ⟨⟨[⟨⟨aid, H aid⟩, [], [⟨bid, H bid⟩]⟩,
        ⟨⟨bid, H bid⟩, [], [⟨aid, H aid⟩]⟩], [aid, bid]⟩,
      ⟨[⟨⟨aid, H aid⟩, [], [⟨bid, H bid⟩]⟩,
        ⟨⟨bid, H bid⟩, [(s, JSVal.vStr v)], [⟨aid, H aid⟩]⟩], [aid, bid]⟩,
      ⟨[⟨⟨aid, H aid⟩, [], sortByDist ⟨aid, H aid⟩ [⟨bid, H bid⟩, ⟨cid, H cid⟩]⟩,
        ⟨⟨bid, H bid⟩, [], sortByDist ⟨bid, H bid⟩ [⟨aid, H aid⟩, ⟨cid, H cid⟩]⟩,
        ⟨⟨cid, H cid⟩, [(s, JSVal.vStr v)],
          sortByDist ⟨cid, H cid⟩ [⟨aid, H aid⟩, ⟨bid, H bid⟩]⟩], [aid, bid, cid]⟩,
      hjoin12, store_closerB_eval H aid bid s v i fuel hab hlt hi,
      join_c_holderB_eval H aid bid cid s v fuel hab hac hbc hCA hCB,
      hdataC, hnone, hretr⟩

/-- A concrete hash assignment for the migration witness: `"c"` (hash 14) is
strictly closer to the key `"kb"` (hash 14) than `"b"` (hash 6, distance 1)
which in turn beats `"a"` (hash 1, distance 4). -/
def hashDemoC : String → Nat :=
  fun x =>
    if x = "a" then 1 else if x = "b" then 6 else if x = "c" then 14
    else if x = "kb" then 14 else 0

/-- Witness for C3 at the concrete instance. -/
theorem migration_on_join_witness :
    ∃ net2 dht2 dht3 : KademliaDHT,
      (KademliaDHT.joinNetworkFuel hashDemoC 0 emptyDHT (Node.new hashDemoC "a")).bind
        (fun d => KademliaDHT.joinNetworkFuel hashDemoC 0 d (Node.new hashDemoC "b")) = some net2
      ∧ KademliaDHT.storeDataFuel hashDemoC net2 0 2 (KeyArg.str "kb") "v" = Except.ok dht2
      ∧ KademliaDHT.joinNetworkFuel hashDemoC 2 dht2 (Node.new hashDemoC "c") = some dht3
      ∧ (dataOf dht3 "c").find? (fun e => e.1 == "kb") = some ("kb", JSVal.vStr "v")
      ∧ (∀ n ∈ dht3.heap, n.key.id ≠ "c" → n.data.find? (fun e => e.1 == "kb") = none)
      ∧ ∀ j, j < 3 → KademliaDHT.retrieveDataFuel hashDemoC dht3 j 2 (KeyArg.str "kb")
          = Except.ok (JSVal.vStr "v") :=
  migration_on_join hashDemoC "a" "b" "c" "kb" "v" 0 0 (by decide) (by decide) (by decide)
    (by decide) (by decide) (by decide) (by decide)

/-! ## The heap-level routing-table update is exactly `bucketsAfterAdd` -/

/-- The routing-relevant part of a heap: each node's key and neighbour list. -/
def bucketsView (h : Heap) : List (HashKey × List HashKey) :=
  h.map (fun n => (n.key, n.kBuckets))

lemma findNode_cons_pos {m : Node} {ms : Heap} {sid : String}
    (h : (m.key.id == sid) = true) : findNode (m :: ms) sid = some m := by
  unfold findNode
  simp [List.find?_cons, h]

lemma findNode_cons_neg {m : Node} {ms : Heap} {sid : String}
    (h : (m.key.id == sid) = false) : findNode (m :: ms) sid = findNode ms sid := by
  unfold findNode
  simp [List.find?_cons, h]

lemma setNode_cons (m : Node) (ms : Heap) (n : Node) :
    setNode (m :: ms) n = (if m.key.id == n.key.id then n else m) :: setNode ms n := rfl

lemma findNode_id {net : Heap} {sid : String} {self : Node}
    (h : findNode net sid = some self) : (self.key.id == sid) = true := by
  have h2 : List.find? (fun n => n.key.id == sid) net = some self := h
  simpa using List.find?_some h2

lemma findNode_mem {net : Heap} {sid : String} {self : Node}
    (h : findNode net sid = some self) : self ∈ net := by
  have h2 : List.find? (fun n => n.key.id == sid) net = some self := h
  exact List.mem_of_find?_eq_some h2

lemma ids_setNode (net : Heap) (n : Node) :
    (setNode net n).map (fun m => m.key.id) = net.map (fun m => m.key.id) := by
  unfold setNode
  rw [List.map_map]
  apply List.map_congr_left
  intro x hx
  simp only [Function.comp_apply]
  by_cases h : (x.key.id == n.key.id) = true
  · rw [if_pos h]
    exact (beq_iff_eq.mp h).symm
  · rw [if_neg h]

lemma findNode_setNode (sid : String) (self n : Node) (hid : n.key.id = self.key.id) :
    ∀ net : Heap, findNode net sid = some self → findNode (setNode net n) sid = some n
  | [] => by intro hs; simp [findNode] at hs
  | m :: ms => by
    intro hs
    have hselfid := findNode_id hs
    by_cases hm : (m.key.id == sid) = true
    · have hm2 : self = m := by
        rw [findNode_cons_pos hm] at hs
        exact (Option.some_inj.mp hs).symm
      have hcond : (m.key.id == n.key.id) = true := by
        rw [← hm2, hid]
        exact beq_self_eq_true _
      rw [setNode_cons, if_pos hcond]
      apply findNode_cons_pos
      rw [hid]
      exact hselfid
    · have hmf : (m.key.id == sid) = false := by
        cases hval : (m.key.id == sid) with
        | false => rfl
        | true => exact absurd hval hm
      have hrec : findNode ms sid = some self := by
        rwa [findNode_cons_neg hmf] at hs
      have hcond2 : (m.key.id == n.key.id) = false := by
        cases hval : (m.key.id == n.key.id) with
        | false => rfl
        | true =>
          exfalso
          have heq := beq_iff_eq.mp hval
          rw [hid] at heq
          rw [heq] at hm
          exact hm hselfid
      rw [setNode_cons, if_neg (by simp [hcond2]), findNode_cons_neg hmf]
      exact findNode_setNode sid self n hid ms hrec

lemma bucketsView_setNode_dataOnly (net : Heap) (m n : Node)
    (hmem : m ∈ net)
    (hinj : ∀ x ∈ net, ∀ y ∈ net, x.key.id = y.key.id → x = y)
    (hkey : n.key = m.key) (hbuck : n.kBuckets = m.kBuckets) :
    bucketsView (setNode net n) = bucketsView net := by
  unfold bucketsView setNode
  rw [List.map_map]
  apply List.map_congr_left
  intro x hx
  simp only [Function.comp_apply]
  by_cases h : (x.key.id == n.key.id) = true
  · rw [if_pos h]
    have hxm : x = m := hinj x hx m hmem (by rw [beq_iff_eq.mp h, hkey])
    rw [hkey, hbuck, hxm]
  · rw [if_neg h]

lemma inj_of_nodup_ids (h : Heap) (hnodup : (h.map (fun n => n.key.id)).Nodup) :
    ∀ x ∈ h, ∀ y ∈ h, x.key.id = y.key.id → x = y := by
  intro x hx y hy hxy
  exact List.inj_on_of_nodup_map hnodup hx hy hxy

lemma transferStep_view (H : String → Nat) (fuel : Nat) (sid nid : String)
    (h h2 : Heap) (e : String × JSVal)
    (hnodup : (h.map (fun n => n.key.id)).Nodup)
    (hstep : transferStep H fuel sid nid h e = some h2) :
    bucketsView h2 = bucketsView h
      ∧ h2.map (fun n => n.key.id) = h.map (fun n => n.key.id) := by
  unfold transferStep at hstep
  simp only [Option.bind_eq_bind] at hstep
  cases hfs : findNode h sid with
  | none => rw [hfs] at hstep; simp at hstep
  | some selfNow =>
    rw [hfs] at hstep
    simp only [Option.some_bind] at hstep
    cases hfc : Node.findClosestNodeFuel h fuel selfNow (HashKey.toKey H (KeyArg.str e.1)) with
    | none => rw [hfc] at hstep; simp at hstep
    | some newClosest =>
      rw [hfc] at hstep
      simp only [Option.some_bind] at hstep
      cases hfn : findNode h nid with
      | none => rw [hfn] at hstep; simp at hstep
      | some newNode =>
        rw [hfn] at hstep
        simp only [Option.some_bind] at hstep
        by_cases hif : (newClosest.key.id == newNode.key.id) = true
        · rw [if_pos hif] at hstep
          have hview1 : bucketsView (setNode h
              (newNode.storeData (HashKey.toKey H (KeyArg.str e.1)) e.2)) = bucketsView h :=
            bucketsView_setNode_dataOnly h newNode _ (findNode_mem hfn)
              (inj_of_nodup_ids h hnodup) rfl rfl
          have hids1 := ids_setNode h
            (newNode.storeData (HashKey.toKey H (KeyArg.str e.1)) e.2)
          cases hfa : findNode (setNode h
              (newNode.storeData (HashKey.toKey H (KeyArg.str e.1)) e.2)) sid with
          | none => rw [hfa] at hstep; simp at hstep
          | some selfAfter =>
            rw [hfa] at hstep
            simp only [Option.some_bind, Option.pure_def, Option.some_inj] at hstep
            have hnodup1 : ((setNode h (newNode.storeData
                (HashKey.toKey H (KeyArg.str e.1)) e.2)).map
                  (fun n => n.key.id)).Nodup := by
              rw [hids1]; exact hnodup
            have hview2 : bucketsView h2 = bucketsView (setNode h
                (newNode.storeData (HashKey.toKey H (KeyArg.str e.1)) e.2)) := by
              rw [← hstep]
              exact bucketsView_setNode_dataOnly _ selfAfter _ (findNode_mem hfa)
                (inj_of_nodup_ids _ hnodup1) rfl rfl
            have hids2 : h2.map (fun n => n.key.id) = (setNode h (newNode.storeData
                (HashKey.toKey H (KeyArg.str e.1)) e.2)).map (fun n => n.key.id) := by
              rw [← hstep]
              exact ids_setNode _ _
            exact ⟨hview2.trans hview1, hids2.trans hids1⟩
        · rw [if_neg hif] at hstep
          simp only [Option.pure_def, Option.some_inj] at hstep
          rw [← hstep]
          exact ⟨rfl, rfl⟩

lemma transfer_fold_view (H : String → Nat) (fuel : Nat) (sid nid : String) :
    ∀ (entries : List (String × JSVal)) (h : Heap),
      (h.map (fun n => n.key.id)).Nodup →
      ∀ h2, List.foldlM (transferStep H fuel sid nid) h entries = some h2 →
        bucketsView h2 = bucketsView h
          ∧ h2.map (fun n => n.key.id) = h.map (fun n => n.key.id)
  | [], h => by
    intro _ h2 hfold
    simp only [List.foldlM_nil, Option.pure_def, Option.some_inj] at hfold
    rw [← hfold]
    exact ⟨rfl, rfl⟩
  | e :: es, h => by
    intro hnodup h2 hfold
    rw [List.foldlM_cons] at hfold
    cases hstep : transferStep H fuel sid nid h e with
    | none => rw [hstep] at hfold; simp at hfold
    | some h1 =>
      rw [hstep] at hfold
      simp only [Option.bind_eq_bind, Option.some_bind] at hfold
      obtain ⟨hv1, hi1⟩ := transferStep_view H fuel sid nid h h1 e hnodup hstep
      have hnodup1 : (h1.map (fun n => n.key.id)).Nodup := by rw [hi1]; exact hnodup
      obtain ⟨hv2, hi2⟩ := transfer_fold_view H fuel sid nid es h1 hnodup1 h2 hfold
      exact ⟨hv2.trans hv1, hi2.trans hi1⟩

lemma transferData_view (H : String → Nat) (net : Heap) (fuel : Nat)
    (sid nid : String) (net' : Heap)
    (hnodup : (net.map (fun n => n.key.id)).Nodup)
    (htr : Node.transferDataFuel H net fuel sid nid = some net') :
    bucketsView net' = bucketsView net
      ∧ net'.map (fun n => n.key.id) = net.map (fun n => n.key.id) := by
  unfold Node.transferDataFuel at htr
  cases hfs : findNode net sid with
  | none => rw [hfs] at htr; simp at htr
  | some self =>
    rw [hfs] at htr
    exact transfer_fold_view H fuel sid nid self.data net hnodup net' htr

lemma findNode_congr_view (sid : String) :
    ∀ (h1 h2 : Heap), bucketsView h1 = bucketsView h2 →
      (findNode h1 sid).map (fun n => (n.key, n.kBuckets))
        = (findNode h2 sid).map (fun n => (n.key, n.kBuckets))
  | [], h2 => by
    intro hv
    unfold bucketsView at hv
    have : h2 = [] := by
      cases h2 with
      | nil => rfl
      | cons x xs => simp at hv
    rw [this]
  | m1 :: ms1, h2 => by
    intro hv
    cases h2 with
    | nil => unfold bucketsView at hv; simp at hv
    | cons m2 ms2 =>
      unfold bucketsView at hv
      simp only [List.map_cons, List.cons.injEq, Prod.mk.injEq] at hv
      obtain ⟨⟨hk, hb⟩, htail⟩ := hv
      by_cases hc : (m1.key.id == sid) = true
      · have hc2 : (m2.key.id == sid) = true := by rw [← hk]; exact hc
        rw [findNode_cons_pos hc, findNode_cons_pos hc2]
        simp [hk, hb]
      · have hc1 : (m1.key.id == sid) = false := by
          cases hval : (m1.key.id == sid) with
          | false => rfl
          | true => exact absurd hval hc
        have hc2 : (m2.key.id == sid) = false := by rw [← hk]; exact hc1
        rw [findNode_cons_neg hc1, findNode_cons_neg hc2]
        exact findNode_congr_view sid ms1 ms2 htail

/-- Heap-level `addToRoutingTable` updates the calling node's `kBuckets`
exactly as `bucketsAfterAdd` describes (and `transferData` touches no
routing table). -/
lemma addToRoutingTable_buckets (H : String → Nat) (net : Heap) (fuel : Nat)
    (sid oid : String) (net' : Heap) (self other : Node)
    (hnodup : (net.map (fun n => n.key.id)).Nodup)
    (hs : findNode net sid = some self) (ho : findNode net oid = some other)
    (hadd : Node.addToRoutingTableFuel H net fuel sid oid = some net') :
    (findNode net' sid).map Node.kBuckets
      = some (bucketsAfterAdd self.key other.key self.kBuckets) := by
  unfold Node.addToRoutingTableFuel at hadd
  simp only [hs, ho] at hadd
  by_cases h1 : (self.key.id == other.key.id) = true
  · rw [if_pos h1] at hadd
    have hnet : net' = net := (Option.some_inj.mp hadd).symm
    rw [hnet, hs]
    unfold bucketsAfterAdd
    rw [if_pos h1]
    rfl
  · rw [if_neg h1] at hadd
    by_cases h2 : ((self.kBuckets.find? (fun k => k.id == other.key.id)).isSome) = true
    · rw [if_pos h2] at hadd
      have hnet : net' = net := (Option.some_inj.mp hadd).symm
      rw [hnet, hs]
      unfold bucketsAfterAdd
      rw [if_neg h1, if_pos h2]
      rfl
    · rw [if_neg h2] at hadd
      have hn1 : findNode (setNode net
          { self with kBuckets := bucketsInsert self.key other.key self.kBuckets }) sid
          = some { self with kBuckets := bucketsInsert self.key other.key self.kBuckets } :=
        findNode_setNode sid self
          { self with kBuckets := bucketsInsert self.key other.key self.kBuckets } rfl net hs
      have hnodup1 : ((setNode net
          { self with kBuckets := bucketsInsert self.key other.key self.kBuckets }).map
            (fun n => n.key.id)).Nodup := by
        rw [ids_setNode]
        exact hnodup
      obtain ⟨hv, _⟩ := transferData_view H _ fuel sid oid net' hnodup1 hadd
      have hcg := findNode_congr_view sid net' _ hv
      rw [hn1] at hcg
      have hba : bucketsAfterAdd self.key other.key self.kBuckets
          = bucketsInsert self.key other.key self.kBuckets := by
        unfold bucketsAfterAdd
        rw [if_neg h1, if_neg h2]
      cases hf : findNode net' sid with
      | none =>
        rw [hf] at hcg
        exact absurd hcg (by simp)
      | some w =>
        rw [hf] at hcg
        simp only [Option.map_some', Option.some_inj, Prod.mk.injEq] at hcg
        simp only [Option.map_some']
        rw [hba]
        exact congrArg some hcg.2

/-- Claim C5: after any sequence of `addToRoutingTable` calls starting from the
constructor's empty table, the neighbour list has at most `K` entries, never
contains the owner's identity, has pairwise-distinct identities, and is sorted
ascending by XOR distance to the owner. The second part ties the statement to
the full heap-level operation: `addToRoutingTable` rewrites the calling node's
`kBuckets` exactly as `bucketsAfterAdd` does, so the fold in the first part is
the table after any call sequence. -/
theorem addToRoutingTable_invariant :
    (∀ (selfKey : HashKey) (others : List HashKey),
      (others.foldl (fun b o => bucketsAfterAdd selfKey o b) []).length ≤ Node.K
      ∧ (∀ x ∈ others.foldl (fun b o => bucketsAfterAdd selfKey o b) [], x.id ≠ selfKey.id)
      ∧ ((others.foldl (fun b o => bucketsAfterAdd selfKey o b) []).map HashKey.id).Nodup
      ∧ (others.foldl (fun b o => bucketsAfterAdd selfKey o b) []).Pairwise
          (fun a b => Node.xorDistance selfKey a ≤ Node.xorDistance selfKey b))
    ∧ ∀ (H : String → Nat) (net : Heap) (fuel : Nat) (sid oid : String)
        (net' : Heap) (self other : Node),
        (net.map (fun n => n.key.id)).Nodup →
        findNode net sid = some self → findNode net oid = some other →
        Node.addToRoutingTableFuel H net fuel sid oid = some net' →
        (findNode net' sid).map Node.kBuckets
          = some (bucketsAfterAdd self.key other.key self.kBuckets) :=
  ⟨fun selfKey others => bucketInv_foldl selfKey others [] (bucketInv_nil selfKey),
   fun H net fuel sid oid net' self other hnodup hs ho hadd =>
     addToRoutingTable_buckets H net fuel sid oid net' self other hnodup hs ho hadd⟩

/-- Witness for C5's heap-level part at a concrete two-node heap. -/
theorem addToRoutingTable_invariant_witness :
    (findNode [⟨⟨"a", 1⟩, [], [⟨"b", 2⟩]⟩, ⟨⟨"b", 2⟩, [], []⟩] "a").map Node.kBuckets
      = some (bucketsAfterAdd ⟨"a", 1⟩ ⟨"b", 2⟩ []) :=
  addToRoutingTable_invariant.2 (fun _ => 0)
    [⟨⟨"a", 1⟩, [], []⟩, ⟨⟨"b", 2⟩, [], []⟩] 1 "a" "b"
    [⟨⟨"a", 1⟩, [], [⟨"b", 2⟩]⟩, ⟨⟨"b", 2⟩, [], []⟩]
    ⟨⟨"a", 1⟩, [], []⟩ ⟨⟨"b", 2⟩, [], []⟩
    (by decide) (by decide) (by decide) (by decide)
